import Mathlib

/-! f1-telemetry-scan: UDP telemetry ingestion and WebSocket fan-out

A shallow embedding of `src/main/main.go`.

* Bytes are `Fin 256`; every Go unsigned integer is a `Nat`, every Go signed
  integer an `Int`; `float32` fields are carried as their 32-bit pattern.
* `encoding/binary` stores a decoded `float32` struct field with
  `v.SetFloat(float64(math.Float32frombits(bits)))`: the value goes through
  `float64` and back. On amd64 and arm64 these conversions are exact on every
  pattern but a signalling NaN, which comes back with its quiet bit set.
* Go `int` is taken at its 64-bit width (amd64 / arm64), so the conversion
  `uint32(SAMPLE_EVERY_N_FRAMES)` is reduction modulo `2 ^ 32`.
* `binary.Read(bytes.NewReader(b), binary.LittleEndian, &v)` is modelled after
  `encoding/binary`: the data size of `v` is the sum of its field widths, that
  many bytes are read in full (or the call fails and leaves `v` untouched), and
  the fields are then decoded in declaration order by a cursor.
* One iteration of the `for` loop of `main` is a function from the sampling
  state, the receive buffer and the result of `ReadFrom` to the new sampling
  state, the trace of decode/send events, and a possible runtime panic.
-/

namespace F1Telemetry

/-! ## Constants -/

/-- One octet of the receive buffer. -/
abbrev Byte := Fin 256

/-- Packet id of the car telemetry packet (`PID_CAR_TELEMETRY`). -/
def PID_CAR_TELEMETRY : Nat := 6

/-- Size of the packet header in bytes (`HDR_SIZE`). -/
def HDR_SIZE : Nat := 29

/-- Size of one per-car telemetry block in bytes (`TEL_SIZE`). -/
def TEL_SIZE : Nat := 60

/-- Length of the receive buffer, `make([]byte, 4096)`. -/
def BUF_SIZE : Nat := 4096

/-! ## Data model -/

/-- The Go struct `PacketHeader`; `SessionTime` holds the bits of the `float32`. -/
structure PacketHeader where
  PacketFormat : Nat
  GameYear : Nat
  GameMajorVersion : Nat
  GameMinorVersion : Nat
  PacketVersion : Nat
  PacketId : Nat
  SessionUID : Nat
  SessionTime : Nat
  FrameIdentifier : Nat
  OverallFrameId : Nat
  PlayerCarIndex : Nat
  SecondaryPlayer : Int
  deriving DecidableEq, Repr

/-- A Go array `[4]T` of per-wheel values, index 0 to 3. -/
structure Array4 where
  e0 : Nat
  e1 : Nat
  e2 : Nat
  e3 : Nat
  deriving DecidableEq, Repr

/-- The Go struct `CarTelemetryData`; the `float32` fields hold their bits. -/
structure CarTelemetryData where
  Speed : Nat
  Throttle : Nat
  Steer : Nat
  Brake : Nat
  Clutch : Nat
  Gear : Int
  EngineRPM : Nat
  DRS : Nat
  RevLightsPercent : Nat
  RevLightsBitValue : Nat
  BrakesTemp : Array4
  TyresSurfaceTemp : Array4
  TyresInnerTemp : Array4
  EngineTemp : Nat
  TyresPressure : Array4
  SurfaceType : Array4
  deriving DecidableEq, Repr

/-- Zero value of `PacketHeader` (`var hdr PacketHeader`). -/
def PacketHeader.zero : PacketHeader :=
  ⟨0, 0, 0, 0, 0, 0, 0, 0, 0, 0, 0, 0⟩

/-- Zero value of `[4]T`. -/
def Array4.zero : Array4 := ⟨0, 0, 0, 0⟩

/-- Zero value of `CarTelemetryData` (`var tel CarTelemetryData`). -/
def CarTelemetryData.zero : CarTelemetryData :=
  ⟨0, 0, 0, 0, 0, 0, 0, 0, 0, 0, Array4.zero, Array4.zero, Array4.zero, 0, Array4.zero,
    Array4.zero⟩

/-- Widths in bytes of the fields of `PacketHeader`, in declaration order. -/
def PacketHeader.fieldWidths : List Nat := [2, 1, 1, 1, 1, 1, 8, 4, 4, 4, 1, 1]

/-- Widths in bytes of the fields of `CarTelemetryData`, in declaration order
(an array counts its four elements). -/
def CarTelemetryData.fieldWidths : List Nat :=
  [2, 4, 4, 4, 1, 1, 2, 1, 1, 2, 4 * 2, 4 * 1, 4 * 1, 2, 4 * 4, 4 * 1]

/-- The size `encoding/binary` computes for a `PacketHeader`. -/
def PacketHeader.dataSize : Nat := PacketHeader.fieldWidths.sum

/-- The size `encoding/binary` computes for a `CarTelemetryData`. -/
def CarTelemetryData.dataSize : Nat := CarTelemetryData.fieldWidths.sum

/-! ## The little-endian decoder of `encoding/binary` -/

/-- Value of a byte string read as a little-endian unsigned integer
(`binary.LittleEndian.Uint16/32/64`). -/
def leNat : List Byte → Nat
  | [] => 0
  | b :: bs => b.val + 256 * leNat bs

/-- Cursor read of a `w`-byte little-endian unsigned integer: the value and the
bytes that remain, or `none` when fewer than `w` bytes are left. -/
def readUint (w : Nat) (bs : List Byte) : Option (Nat × List Byte) :=
  if w ≤ bs.length then some (leNat (bs.take w), bs.drop w) else none

/-- Go conversion `int8(x)` of a `uint8`. -/
def toInt8 (x : Nat) : Int := if x < 128 then (x : Int) else (x : Int) - 256

/-- Cursor read of an `int8`. -/
def readInt8 (bs : List Byte) : Option (Int × List Byte) :=
  match readUint 1 bs with
  | some (x, rest) => some (toInt8 x, rest)
  | none => none

/-- The pattern `bits` is a signalling NaN of `float32`: exponent bits all
ones, mantissa not zero, quiet bit (bit 22) clear. -/
def isSignallingNaN (bits : Nat) : Prop :=
  bits / 2 ^ 23 % 256 = 255 ∧ bits % 2 ^ 23 ≠ 0 ∧ bits / 2 ^ 22 % 2 = 0

instance (bits : Nat) : Decidable (isSignallingNaN bits) := by
  unfold isSignallingNaN
  infer_instance

/-- The pattern of the `float32` that `encoding/binary` stores in a struct field
for the wire pattern `bits`, `v.SetFloat(float64(math.Float32frombits(bits)))`:
the conversion to `float64` and back keeps every pattern but a signalling NaN,
whose quiet bit it sets. -/
def float32Store (bits : Nat) : Nat :=
  if isSignallingNaN bits then bits + 2 ^ 22 else bits

/-- Cursor read of a `float32`. -/
def readFloat32 (bs : List Byte) : Option (Nat × List Byte) :=
  match readUint 4 bs with
  | some (x, rest) => some (float32Store x, rest)
  | none => none

/-- Cursor read of a `[4]float32`. -/
def readFloat32Array4 (bs : List Byte) : Option (Array4 × List Byte) :=
  match readFloat32 bs with
  | none => none
  | some (a, bs1) =>
    match readFloat32 bs1 with
    | none => none
    | some (b, bs2) =>
      match readFloat32 bs2 with
      | none => none
      | some (c, bs3) =>
        match readFloat32 bs3 with
        | none => none
        | some (d, bs4) => some (⟨a, b, c, d⟩, bs4)

/-- Cursor read of a `[4]T` whose elements are unsigned integers `w` bytes
wide. -/
def readArray4 (w : Nat) (bs : List Byte) : Option (Array4 × List Byte) :=
  match readUint w bs with
  | none => none
  | some (a, bs1) =>
    match readUint w bs1 with
    | none => none
    | some (b, bs2) =>
      match readUint w bs2 with
      | none => none
      | some (c, bs3) =>
        match readUint w bs3 with
        | none => none
        | some (d, bs4) => some (⟨a, b, c, d⟩, bs4)

/-- Field-by-field decode of a `PacketHeader`, in declaration order. -/
def decodePacketHeader (bs : List Byte) : Option (PacketHeader × List Byte) :=
  match readUint 2 bs with
  | none => none
  | some packetFormat =>
  match readUint 1 packetFormat.2 with
  | none => none
  | some gameYear =>
  match readUint 1 gameYear.2 with
  | none => none
  | some gameMajorVersion =>
  match readUint 1 gameMajorVersion.2 with
  | none => none
  | some gameMinorVersion =>
  match readUint 1 gameMinorVersion.2 with
  | none => none
  | some packetVersion =>
  match readUint 1 packetVersion.2 with
  | none => none
  | some packetId =>
  match readUint 8 packetId.2 with
  | none => none
  | some sessionUID =>
  match readFloat32 sessionUID.2 with
  | none => none
  | some sessionTime =>
  match readUint 4 sessionTime.2 with
  | none => none
  | some frameIdentifier =>
  match readUint 4 frameIdentifier.2 with
  | none => none
  | some overallFrameId =>
  match readUint 1 overallFrameId.2 with
  | none => none
  | some playerCarIndex =>
  match readInt8 playerCarIndex.2 with
  | none => none
  | some secondaryPlayer =>
  some (⟨packetFormat.1, gameYear.1, gameMajorVersion.1, gameMinorVersion.1, packetVersion.1,
    packetId.1, sessionUID.1, sessionTime.1, frameIdentifier.1, overallFrameId.1,
    playerCarIndex.1, secondaryPlayer.1⟩, secondaryPlayer.2)

/-- Field-by-field decode of a `CarTelemetryData`, in declaration order. -/
def decodeCarTelemetryData (bs : List Byte) : Option (CarTelemetryData × List Byte) :=
  match readUint 2 bs with
  | none => none
  | some speed =>
  match readFloat32 speed.2 with
  | none => none
  | some throttle =>
  match readFloat32 throttle.2 with
  | none => none
  | some steer =>
  match readFloat32 steer.2 with
  | none => none
  | some brake =>
  match readUint 1 brake.2 with
  | none => none
  | some clutch =>
  match readInt8 clutch.2 with
  | none => none
  | some gear =>
  match readUint 2 gear.2 with
  | none => none
  | some engineRPM =>
  match readUint 1 engineRPM.2 with
  | none => none
  | some drs =>
  match readUint 1 drs.2 with
  | none => none
  | some revLightsPercent =>
  match readUint 2 revLightsPercent.2 with
  | none => none
  | some revLightsBitValue =>
  match readArray4 2 revLightsBitValue.2 with
  | none => none
  | some brakesTemp =>
  match readArray4 1 brakesTemp.2 with
  | none => none
  | some tyresSurfaceTemp =>
  match readArray4 1 tyresSurfaceTemp.2 with
  | none => none
  | some tyresInnerTemp =>
  match readUint 2 tyresInnerTemp.2 with
  | none => none
  | some engineTemp =>
  match readFloat32Array4 engineTemp.2 with
  | none => none
  | some tyresPressure =>
  match readArray4 1 tyresPressure.2 with
  | none => none
  | some surfaceType =>
  some (⟨speed.1, throttle.1, steer.1, brake.1, clutch.1, gear.1, engineRPM.1, drs.1,
    revLightsPercent.1, revLightsBitValue.1, brakesTemp.1, tyresSurfaceTemp.1, tyresInnerTemp.1,
    engineTemp.1, tyresPressure.1, surfaceType.1⟩, surfaceType.2)

/-- Model of `binary.Read(bytes.NewReader(r), binary.LittleEndian, &hdr)`: the
data size is read in full from `r`, else the call fails; then the fields are
decoded. -/
def binaryReadHeader (r : List Byte) : Option PacketHeader :=
  if r.length < PacketHeader.dataSize then none
  else (decodePacketHeader (r.take PacketHeader.dataSize)).map Prod.fst

/-- Model of `binary.Read(bytes.NewReader(r), binary.LittleEndian, &tel)`. -/
def binaryReadTelemetry (r : List Byte) : Option CarTelemetryData :=
  if r.length < CarTelemetryData.dataSize then none
  else (decodeCarTelemetryData (r.take CarTelemetryData.dataSize)).map Prod.fst

/-! ## Sampling filter (lines 164-172 of `main.go`) -/

/-- The loop variables `lastFrame` and `firstPacket`. -/
structure SamplingState where
  lastFrame : Nat
  firstPacket : Bool
  deriving DecidableEq, Repr

/-- The sampling state the loop starts with: `var lastFrame uint32`,
`var firstPacket = true`. -/
def SamplingState.init : SamplingState := ⟨0, true⟩

/-- Go conversion `uint32(n)` of an `int`. -/
def toUint32 (n : Int) : Nat := (n % 2 ^ 32).toNat

/-- What the sampling code does with one telemetry packet. -/
inductive Verdict where
  | accept
  | rejectDuplicate
  | rejectModulo
  | divideByZero
  deriving DecidableEq, Repr

/-- The sampling code applied to a packet with overall frame id `f`:
the dedup check, the modulo check (a run-time panic when the divisor
`uint32(N)` is zero), then the update of the two loop variables. -/
def samplingFilter (N : Int) (st : SamplingState) (f : Nat) : Verdict × SamplingState :=
  if !st.firstPacket && f == st.lastFrame then (Verdict.rejectDuplicate, st)
  else if toUint32 N = 0 then (Verdict.divideByZero, st)
  else if f % toUint32 N ≠ 0 then (Verdict.rejectModulo, st)
  else (Verdict.accept, ⟨f, false⟩)

/-- The verdicts of the sampling code on a sequence of overall frame ids, the
state being threaded from one packet to the next; a panic ends the run. -/
def runFilter (N : Int) : SamplingState → List Nat → List Verdict
  | _, [] => []
  | st, f :: fs =>
    match samplingFilter N st f with
    | (Verdict.divideByZero, _) => [Verdict.divideByZero]
    | (v, st1) => v :: runFilter N st1 fs

/-! ## One iteration of the ingestion loop (lines 147-184 of `main.go`) -/

/-- Observable actions of one loop iteration. -/
inductive Event where
  | headerDecoded (hdr : PacketHeader)
  | telemetryDecoded (offset : Nat)
  | sent (tel : CarTelemetryData)
  deriving DecidableEq, Repr

/-- Run-time panics the loop body can raise. -/
inductive Panic where
  | divideByZero
  | sliceOutOfRange
  deriving DecidableEq, Repr

/-- Result of one loop iteration. -/
structure StepResult where
  state : SamplingState
  trace : List Event
  panic : Option Panic
  deriving DecidableEq, Repr

/-- Go slice expression `buf[lo:hi]` on a slice whose capacity is its length:
a panic (`none`) unless `lo ≤ hi ≤ cap(buf)`. -/
def slice (buf : List Byte) (lo hi : Nat) : Option (List Byte) :=
  if lo ≤ hi ∧ hi ≤ buf.length then some ((buf.drop lo).take (hi - lo)) else none

/-- The loop body after a successful `ReadFrom` that returned length `n`. -/
def processDatagram (N : Int) (st : SamplingState) (buf : List Byte) (n : Nat) : StepResult :=
  if n < HDR_SIZE then ⟨st, [], none⟩
  else
    match slice buf 0 HDR_SIZE with
    | none => ⟨st, [], some Panic.sliceOutOfRange⟩
    | some hb =>
      let hdr := (binaryReadHeader hb).getD PacketHeader.zero
      if hdr.PacketId ≠ PID_CAR_TELEMETRY then ⟨st, [Event.headerDecoded hdr], none⟩
      else
        match samplingFilter N st hdr.OverallFrameId with
        | (Verdict.divideByZero, st1) =>
          ⟨st1, [Event.headerDecoded hdr], some Panic.divideByZero⟩
        | (Verdict.accept, st1) =>
          let offset := HDR_SIZE + hdr.PlayerCarIndex * TEL_SIZE
          if n < offset + TEL_SIZE then ⟨st1, [Event.headerDecoded hdr], none⟩
          else
            match slice buf offset (offset + TEL_SIZE) with
            | none => ⟨st1, [Event.headerDecoded hdr], some Panic.sliceOutOfRange⟩
            | some tb =>
              let tel := (binaryReadTelemetry tb).getD CarTelemetryData.zero
              ⟨st1, [Event.headerDecoded hdr, Event.telemetryDecoded offset, Event.sent tel],
                none⟩
        | (_, st1) => ⟨st1, [Event.headerDecoded hdr], none⟩

/-- One iteration of the `for` loop: `ReadFrom` returned `(n, err)`. -/
def loopBody (N : Int) (st : SamplingState) (buf : List Byte) (n : Nat) (readErr : Bool) :
    StepResult :=
  if readErr then ⟨st, [], none⟩ else processDatagram N st buf n

/-- The records handed to the Hub (`hub.broadcast <- tel`) in a trace. -/
def sentRecords : List Event → List CarTelemetryData
  | [] => []
  | Event.sent tel :: es => tel :: sentRecords es
  | _ :: es => sentRecords es

/-- The offsets at which a telemetry decode was performed in a trace. -/
def telemetryDecodes : List Event → List Nat
  | [] => []
  | Event.telemetryDecoded off :: es => off :: telemetryDecodes es
  | _ :: es => telemetryDecodes es

/-- The headers decoded in a trace. -/
def headerDecodes : List Event → List PacketHeader
  | [] => []
  | Event.headerDecoded h :: es => h :: headerDecodes es
  | _ :: es => headerDecodes es

/-- The header the loop body decodes from the first `HDR_SIZE` bytes of the
buffer (`var hdr PacketHeader; binary.Read(... buf[:HDR_SIZE] ...)`, the error
of `binary.Read` being dropped). -/
def headerOf (buf : List Byte) : PacketHeader :=
  (binaryReadHeader (buf.take HDR_SIZE)).getD PacketHeader.zero

/-- Value of the byte of `buf` at index `i` (0 past the end). -/
def byteAt (buf : List Byte) (i : Nat) : Nat := (buf.getD i 0).val

/-- The payload offset the loop body computes from a header:
`HDR_SIZE + int(hdr.PlayerCarIndex) * TEL_SIZE`. -/
def payloadOffset (hdr : PacketHeader) : Nat := HDR_SIZE + hdr.PlayerCarIndex * TEL_SIZE

/-- Little-endian value of the `w` bytes of `r` from index `i`. -/
def leAt (r : List Byte) (i w : Nat) : Nat := leNat ((r.drop i).take w)

/-- The telemetry record laid out in the 60 bytes of `r` from offset `o`:
every field the little-endian value of its bytes, in declaration order. -/
def telemetryAt (r : List Byte) (o : Nat) : CarTelemetryData :=
  ⟨leAt r o 2, leAt r (o + 2) 4, leAt r (o + 6) 4, leAt r (o + 10) 4, leAt r (o + 14) 1,
    toInt8 (leAt r (o + 15) 1), leAt r (o + 16) 2, leAt r (o + 18) 1, leAt r (o + 19) 1,
    leAt r (o + 20) 2,
    ⟨leAt r (o + 22) 2, leAt r (o + 24) 2, leAt r (o + 26) 2, leAt r (o + 28) 2⟩,
    ⟨leAt r (o + 30) 1, leAt r (o + 31) 1, leAt r (o + 32) 1, leAt r (o + 33) 1⟩,
    ⟨leAt r (o + 34) 1, leAt r (o + 35) 1, leAt r (o + 36) 1, leAt r (o + 37) 1⟩,
    leAt r (o + 38) 2,
    ⟨leAt r (o + 40) 4, leAt r (o + 44) 4, leAt r (o + 48) 4, leAt r (o + 52) 4⟩,
    ⟨leAt r (o + 56) 1, leAt r (o + 57) 1, leAt r (o + 58) 1, leAt r (o + 59) 1⟩⟩

/-- The array with every element stored as a `float32`. -/
def Array4.stored (a : Array4) : Array4 :=
  ⟨float32Store a.e0, float32Store a.e1, float32Store a.e2, float32Store a.e3⟩

/-- The header with its `float32` field stored as Go stores it. -/
def PacketHeader.stored (h : PacketHeader) : PacketHeader :=
  { h with SessionTime := float32Store h.SessionTime }

/-- The record with its `float32` fields stored as Go stores them. -/
def CarTelemetryData.stored (t : CarTelemetryData) : CarTelemetryData :=
  { t with
    Throttle := float32Store t.Throttle
    Steer := float32Store t.Steer
    Brake := float32Store t.Brake
    TyresPressure := t.TyresPressure.stored }

/-- No `float32` field of the header holds a signalling NaN. -/
def PacketHeader.NoSignallingNaN (h : PacketHeader) : Prop := ¬ isSignallingNaN h.SessionTime

/-- No `float32` field of the record holds a signalling NaN. -/
def CarTelemetryData.NoSignallingNaN (t : CarTelemetryData) : Prop :=
  ¬ isSignallingNaN t.Throttle ∧ ¬ isSignallingNaN t.Steer ∧ ¬ isSignallingNaN t.Brake ∧
  ¬ isSignallingNaN t.TyresPressure.e0 ∧ ¬ isSignallingNaN t.TyresPressure.e1 ∧
  ¬ isSignallingNaN t.TyresPressure.e2 ∧ ¬ isSignallingNaN t.TyresPressure.e3

instance (h : PacketHeader) : Decidable h.NoSignallingNaN := by
  unfold PacketHeader.NoSignallingNaN
  infer_instance

instance (t : CarTelemetryData) : Decidable t.NoSignallingNaN := by
  unfold CarTelemetryData.NoSignallingNaN
  infer_instance

/-- The header laid out in the first 29 bytes of `r`: every field the
little-endian value of its bytes, in declaration order, the two signed bytes
read as `int8`. -/
def headerAt (r : List Byte) : PacketHeader :=
  ⟨byteAt r 0 + 256 * byteAt r 1, byteAt r 2, byteAt r 3, byteAt r 4, byteAt r 5, byteAt r 6,
    byteAt r 7 + 256 * (byteAt r 8 + 256 * (byteAt r 9 + 256 * (byteAt r 10 +
      256 * (byteAt r 11 + 256 * (byteAt r 12 + 256 * (byteAt r 13 + 256 * byteAt r 14)))))),
    byteAt r 15 + 256 * (byteAt r 16 + 256 * (byteAt r 17 + 256 * byteAt r 18)),
    byteAt r 19 + 256 * (byteAt r 20 + 256 * (byteAt r 21 + 256 * byteAt r 22)),
    byteAt r 23 + 256 * (byteAt r 24 + 256 * (byteAt r 25 + 256 * byteAt r 26)),
    byteAt r 27, toInt8 (byteAt r 28)⟩

/-! ## Writing a record out (the layout of section 3 of the specification)

The program only decodes; the encoder below follows the wording of the
specification (fields in declaration order, little-endian, no padding) and is
what the decoder is compared with. -/

/-- The `w` low-order bytes of `x`, least significant first. -/
def leBytes : Nat → Nat → List Byte
  | 0, _ => []
  | w + 1, x => ⟨x % 256, Nat.mod_lt x (by decide)⟩ :: leBytes w (x / 256)

/-- Go conversion `uint8(x)` of an `int8`. -/
def fromInt8 (x : Int) : Nat := (x % 256).toNat

/-- A `[4]T` written element by element, each `w` bytes wide. -/
def encodeArray4 (w : Nat) (a : Array4) : List Byte :=
  leBytes w a.e0 ++ (leBytes w a.e1 ++ (leBytes w a.e2 ++ leBytes w a.e3))

/-- A `PacketHeader` written in declaration order, little-endian, unpadded. -/
def encodePacketHeader (h : PacketHeader) : List Byte :=
  leBytes 2 h.PacketFormat ++ (leBytes 1 h.GameYear ++ (leBytes 1 h.GameMajorVersion ++
  (leBytes 1 h.GameMinorVersion ++ (leBytes 1 h.PacketVersion ++ (leBytes 1 h.PacketId ++
  (leBytes 8 h.SessionUID ++ (leBytes 4 h.SessionTime ++ (leBytes 4 h.FrameIdentifier ++
  (leBytes 4 h.OverallFrameId ++ (leBytes 1 h.PlayerCarIndex ++
  leBytes 1 (fromInt8 h.SecondaryPlayer)))))))))))

/-- A `CarTelemetryData` written in declaration order, little-endian, unpadded. -/
def encodeCarTelemetryData (t : CarTelemetryData) : List Byte :=
  leBytes 2 t.Speed ++ (leBytes 4 t.Throttle ++ (leBytes 4 t.Steer ++ (leBytes 4 t.Brake ++
  (leBytes 1 t.Clutch ++ (leBytes 1 (fromInt8 t.Gear) ++ (leBytes 2 t.EngineRPM ++
  (leBytes 1 t.DRS ++ (leBytes 1 t.RevLightsPercent ++ (leBytes 2 t.RevLightsBitValue ++
  (encodeArray4 2 t.BrakesTemp ++ (encodeArray4 1 t.TyresSurfaceTemp ++
  (encodeArray4 1 t.TyresInnerTemp ++ (leBytes 2 t.EngineTemp ++
  (encodeArray4 4 t.TyresPressure ++ encodeArray4 1 t.SurfaceType))))))))))))))

/-- Every element of the array fits in `w` bytes. -/
def Array4.InRange (w : Nat) (a : Array4) : Prop :=
  a.e0 < 256 ^ w ∧ a.e1 < 256 ^ w ∧ a.e2 < 256 ^ w ∧ a.e3 < 256 ^ w

/-- Every field holds a value of its Go type. -/
def PacketHeader.InRange (h : PacketHeader) : Prop :=
  h.PacketFormat < 256 ^ 2 ∧ h.GameYear < 256 ^ 1 ∧ h.GameMajorVersion < 256 ^ 1 ∧
  h.GameMinorVersion < 256 ^ 1 ∧ h.PacketVersion < 256 ^ 1 ∧ h.PacketId < 256 ^ 1 ∧
  h.SessionUID < 256 ^ 8 ∧ h.SessionTime < 256 ^ 4 ∧ h.FrameIdentifier < 256 ^ 4 ∧
  h.OverallFrameId < 256 ^ 4 ∧ h.PlayerCarIndex < 256 ^ 1 ∧
  (-128 ≤ h.SecondaryPlayer ∧ h.SecondaryPlayer < 128)

/-- Every field holds a value of its Go type. -/
def CarTelemetryData.InRange (t : CarTelemetryData) : Prop :=
  t.Speed < 256 ^ 2 ∧ t.Throttle < 256 ^ 4 ∧ t.Steer < 256 ^ 4 ∧ t.Brake < 256 ^ 4 ∧
  t.Clutch < 256 ^ 1 ∧ (-128 ≤ t.Gear ∧ t.Gear < 128) ∧ t.EngineRPM < 256 ^ 2 ∧
  t.DRS < 256 ^ 1 ∧ t.RevLightsPercent < 256 ^ 1 ∧ t.RevLightsBitValue < 256 ^ 2 ∧
  t.BrakesTemp.InRange 2 ∧ t.TyresSurfaceTemp.InRange 1 ∧ t.TyresInnerTemp.InRange 1 ∧
  t.EngineTemp < 256 ^ 2 ∧ t.TyresPressure.InRange 4 ∧ t.SurfaceType.InRange 1

instance (w : Nat) (a : Array4) : Decidable (a.InRange w) := by
  unfold Array4.InRange
  infer_instance

instance (h : PacketHeader) : Decidable h.InRange := by
  unfold PacketHeader.InRange
  infer_instance

instance (t : CarTelemetryData) : Decidable t.InRange := by
  unfold CarTelemetryData.InRange
  infer_instance

/-! ## The Hub (lines 68-95 and 114-116 of `main.go`) -/

/-- A WebSocket connection, identified by its pointer. -/
abbrev Conn := Nat

/-- The Hub: the key set of its `clients` map (every stored value is `true`). -/
structure Hub where
  clients : List Conn
  deriving DecidableEq, Repr

/-- The Hub built by `newHub`: an empty `clients` map. -/
def newHub : Hub := ⟨[]⟩

/-- Go builtin `delete(h.clients, client)`. -/
def mapDelete (clients : List Conn) (c : Conn) : List Conn :=
  clients.filter (fun x => x != c)

/-- What one broadcast cycle did: the `WriteJSON` calls in order, the
connections closed, and the `clients` map at the end. -/
structure CycleResult where
  writes : List (Conn × CarTelemetryData)
  closed : List Conn
  clients : List Conn
  deriving DecidableEq, Repr

/-- The loop `for client := range h.clients` of `Hub.run`, the runtime producing
the keys in the sequence `order`: each client is written to, and on a write
error it is closed and deleted from the map. -/
def rangeClients (writeOk : Conn → Bool) (data : CarTelemetryData) :
    List Conn → List Conn → CycleResult
  | [], clients => ⟨[], [], clients⟩
  | c :: rest, clients =>
    if writeOk c then
      let r := rangeClients writeOk data rest clients
      ⟨(c, data) :: r.writes, r.closed, r.clients⟩
    else
      let r := rangeClients writeOk data rest (mapDelete clients c)
      ⟨(c, data) :: r.writes, c :: r.closed, r.clients⟩

/-- One turn of the `for` loop of `Hub.run`: a record is received from the
`broadcast` channel and written to the clients, `writeOk` telling which
`WriteJSON` calls return no error and `order` being the iteration order of the
map. -/
def Hub.runCycle (h : Hub) (writeOk : Conn → Bool) (data : CarTelemetryData)
    (order : List Conn) : CycleResult :=
  rangeClients writeOk data order h.clients

/-- Go map store `hub.clients[conn] = true`. -/
def mapInsert (clients : List Conn) (c : Conn) : List Conn :=
  if clients.contains c then clients else c :: clients

/-- Registration of a connection (lines 114-116): under the lock, the
connection is stored in the `clients` map. -/
def Hub.register (h : Hub) (conn : Conn) : Hub := ⟨mapInsert h.clients conn⟩

/-- The `/telemetry` handler (lines 108-118): the upgrade either fails, and the
handler returns, or yields a connection, which is registered. -/
def telemetryHandler (h : Hub) (upgraded : Option Conn) : Hub :=
  match upgraded with
  | none => h
  | some conn => h.register conn

/-- One record taken from the `broadcast` channel together with what the
environment does during its cycle: which writes succeed and the iteration order
of the map. -/
structure Broadcast where
  writeOk : Conn → Bool
  data : CarTelemetryData
  order : List Conn

/-- Successive turns of the `for` loop of `Hub.run`, no registration in
between: the result of every cycle. -/
def Hub.runCycles : Hub → List Broadcast → List CycleResult
  | _, [] => []
  | h, b :: rest =>
    (h.runCycle b.writeOk b.data b.order) ::
      Hub.runCycles ⟨(h.runCycle b.writeOk b.data b.order).clients⟩ rest

/-- Every cycle iterates over the keys the map holds when the cycle starts. -/
def Hub.ordersEnumerate : Hub → List Broadcast → Bool
  | _, [] => true
  | h, b :: rest =>
    decide (b.order.Perm h.clients) &&
      Hub.ordersEnumerate ⟨(h.runCycle b.writeOk b.data b.order).clients⟩ rest

/-- How a call `client.WriteJSON(data)` ends: it returns `nil`, it returns an
error, or it never returns (the write is made without a deadline). -/
inductive WriteOutcome where
  | ok
  | failed
  | blocked
  deriving DecidableEq, Repr

/-- What one broadcast cycle did when a write may never return: the
`WriteJSON` calls started, the connections closed, the `clients` map, and
whether the loop ran to its end (`h.mu.Unlock()` reached). -/
structure BlockingCycleResult where
  writes : List (Conn × CarTelemetryData)
  closed : List Conn
  clients : List Conn
  completed : Bool
  deriving DecidableEq, Repr

/-- The loop `for client := range h.clients` of `Hub.run` with writes that may
never return: the loop goes no further than a write that blocks. -/
def rangeClientsBlocking (outcome : Conn → WriteOutcome) (data : CarTelemetryData) :
    List Conn → List Conn → BlockingCycleResult
  | [], clients => ⟨[], [], clients, true⟩
  | c :: rest, clients =>
    match outcome c with
    | WriteOutcome.ok =>
      let r := rangeClientsBlocking outcome data rest clients
      ⟨(c, data) :: r.writes, r.closed, r.clients, r.completed⟩
    | WriteOutcome.failed =>
      let r := rangeClientsBlocking outcome data rest (mapDelete clients c)
      ⟨(c, data) :: r.writes, c :: r.closed, r.clients, r.completed⟩
    | WriteOutcome.blocked => ⟨[(c, data)], [], clients, false⟩

/-- One record the ingestion loop sends on the `broadcast` channel, with the
outcome of every write of its cycle and the iteration order of the map. -/
structure BlockingBroadcast where
  outcome : Conn → WriteOutcome
  data : CarTelemetryData
  order : List Conn

/-- The `for` loop of `Hub.run` fed the records the ingestion loop sends, in
order. The channel is unbuffered: a record is received only when the loop is
back at `data := <-h.broadcast`, so after a cycle that does not complete no
further record is received and the sender stays blocked. The result lists the
cycles that were started. -/
def Hub.runBlocking : Hub → List BlockingBroadcast → List BlockingCycleResult
  | _, [] => []
  | h, b :: rest =>
    let r := rangeClientsBlocking b.outcome b.data b.order h.clients
    if r.completed then r :: Hub.runBlocking ⟨r.clients⟩ rest else [r]

/-! ## Configuration (lines 18-22 and 195-201 of `main.go`)

`strconv.Atoi` is modelled after the Go library: `ParseInt(s, 10, 0)` with a
64-bit `int`. Its fast path for short strings returns the same results. -/

/-- The two error kinds of `strconv`. -/
inductive NumError where
  | errSyntax
  | errRange
  deriving DecidableEq, Repr

/-- The digit loop of `strconv.ParseUint(s, 10, 64)`, `n` being the value read
so far: a character that is no decimal digit is a syntax error with value 0, an
overflow of `uint64` is a range error with value `2 ^ 64 - 1`. -/
def parseUintLoop : Nat → List Char → Nat × Option NumError
  | n, [] => (n, none)
  | n, c :: cs =>
    if c.toNat < 48 ∨ 57 < c.toNat then (0, some NumError.errSyntax)
    else if 2 ^ 64 / 10 + 1 ≤ n then (2 ^ 64 - 1, some NumError.errRange)
    else if 2 ^ 64 - 1 < n * 10 + (c.toNat - 48) then (2 ^ 64 - 1, some NumError.errRange)
    else parseUintLoop (n * 10 + (c.toNat - 48)) cs

/-- Model of `strconv.ParseUint(s, 10, 64)`. -/
def ParseUint (s : List Char) : Nat × Option NumError :=
  match s with
  | [] => (0, some NumError.errSyntax)
  | c :: cs => parseUintLoop 0 (c :: cs)

/-- Model of `strconv.ParseInt(s, 10, 0)`: optional sign, `ParseUint`, then the
clamp to the range of `int64`. -/
def ParseInt (s : List Char) : Int × Option NumError :=
  match s with
  | [] => (0, some NumError.errSyntax)
  | c :: cs =>
    match ParseUint (if c = '+' ∨ c = '-' then cs else c :: cs) with
    | (_, some NumError.errSyntax) => (0, some NumError.errSyntax)
    | (un, _) =>
      if c ≠ '-' ∧ 2 ^ 63 ≤ un then (2 ^ 63 - 1, some NumError.errRange)
      else if c = '-' ∧ 2 ^ 63 < un then (-(2 ^ 63), some NumError.errRange)
      else (if c = '-' then -(un : Int) else (un : Int), none)

/-- Model of `strconv.Atoi`: the value and the error. -/
def Atoi (s : String) : Int × Option NumError := ParseInt s.data

/-- The helper `getEnvInt`, `lookup` being the result of `os.LookupEnv(key)`:
a set variable is parsed with `strconv.Atoi`, the error dropped; an unset one
gives the fallback. -/
def getEnvInt (lookup : Option String) (fallback : Int) : Int :=
  match lookup with
  | some value => (Atoi value).1
  | none => fallback

/-- The package variable `SAMPLE_EVERY_N_FRAMES`, from the state of the
environment variable of that name. -/
def SAMPLE_EVERY_N_FRAMES (lookup : Option String) : Int := getEnvInt lookup 2

/-- The character of a decimal digit. -/
def digitChar (d : Nat) : Char := Char.ofNat (48 + d)

/-- The string made of a sign prefix and decimal digits, most significant
first. -/
def decimalString (sign : List Char) (ds : List Nat) : String := ⟨sign ++ ds.map digitChar⟩

/-- The value decimal digits denote, most significant first. -/
def decimalValue (ds : List Nat) : Nat := Nat.ofDigits 10 ds.reverse

/-! ## Sample inputs -/

/-- A 29-byte header: format 2023, packet id 6, overall frame id 4, player car
index 1, secondary player -1. -/
def sampleHeader : List Byte :=
  [0xe7, 0x07, 23, 1, 2, 1, 6, 1, 2, 3, 4, 5, 6, 7, 8, 0, 0, 0x80, 0x3f, 10, 0, 0, 0,
    4, 0, 0, 0, 1, 255]

/-- A 4096-byte receive buffer holding `sampleHeader`, the block of car 0, the
block of car 1 (speed 100), and bytes left over from earlier datagrams. -/
def sampleBuffer : List Byte :=
  sampleHeader ++ (List.replicate 60 0 ++ ([100, 0] ++ (List.replicate 58 7 ++
    List.replicate 3947 9)))

/-- A 4096-byte receive buffer holding an all-zero header but for packet id 6. -/
def zeroFrameBuffer : List Byte :=
  [0, 0, 0, 0, 0, 0, 6] ++ List.replicate 4089 0

/-- A 4096-byte receive buffer holding a header with packet id 2. -/
def otherKindBuffer : List Byte :=
  [0, 0, 0, 0, 0, 0, 2] ++ List.replicate 4089 0

/-- The record in the block of car 1 of `sampleBuffer`. -/
def sampleRecord : CarTelemetryData :=
  ⟨100, 117901063, 117901063, 117901063, 7, 7, 1799, 7, 7, 1799, ⟨1799, 1799, 1799, 1799⟩,
    ⟨7, 7, 7, 7⟩, ⟨7, 7, 7, 7⟩, 1799, ⟨117901063, 117901063, 117901063, 117901063⟩,
    ⟨7, 7, 7, 7⟩⟩

/-- A header value with every kind of field set, the signed one negative. -/
def sampleHeaderValue : PacketHeader :=
  ⟨2023, 23, 1, 2, 1, 6, 578437695752307201, 1065353216, 10, 4, 1, -1⟩

/-- A telemetry value with a reverse gear and distinct per-wheel entries. -/
def sampleTelemetryValue : CarTelemetryData :=
  ⟨312, 1065353216, 3204448256, 0, 0, -1, 11850, 1, 87, 16383, ⟨410, 411, 512, 513⟩,
    ⟨90, 91, 92, 93⟩, ⟨100, 101, 102, 103⟩, 110, ⟨1103101952, 1103102000, 1102577664,
    1102577700⟩, ⟨0, 1, 2, 3⟩⟩

/-- The buffer `sampleBuffer` with other bytes left beyond the first 149. -/
def staleTailBuffer : List Byte :=
  sampleHeader ++ (List.replicate 60 0 ++ ([100, 0] ++ (List.replicate 58 7 ++
    List.replicate 3947 201)))

/-- A 4096-byte buffer whose header has the packet id, overall frame id and
player car index of `sampleHeader` and another session UID, session time, frame
identifier and payload. -/
def otherSessionBuffer : List Byte :=
  [0xe7, 0x07, 23, 1, 2, 1, 6, 9, 9, 9, 9, 9, 9, 9, 9, 0, 0, 0, 0x40, 77, 0, 0, 0,
    4, 0, 0, 0, 1, 0] ++ List.replicate 4067 3

/-- A 4096-byte buffer whose header bytes 15 to 18 hold the signalling NaN
pattern `0x7f800001`, all other bytes zero. -/
def nanHeaderBuffer : List Byte :=
  List.replicate 15 0 ++ ([1, 0, 128, 127] ++ List.replicate 4077 0)

/-- A 4096-byte buffer holding a telemetry datagram (packet id 6, overall frame
id 0, player car index 0) whose throttle bytes hold the signalling NaN pattern
`0x7f800001`. -/
def nanTelemetryBuffer : List Byte :=
  [0, 0, 0, 0, 0, 0, 6] ++ (List.replicate 22 0 ++ ([0, 0, 1, 0, 128, 127] ++
    List.replicate 4061 0))

/-- A header value whose session time holds the signalling NaN pattern
`0x7f800001`. -/
def nanHeaderValue : PacketHeader :=
  ⟨2023, 23, 1, 2, 1, 6, 578437695752307201, 2139095041, 10, 4, 1, -1⟩

/-! ## Theorems -/

/-! ### Little-endian reads at an offset -/

theorem dataSize_header : PacketHeader.dataSize = 29 := by decide

theorem dataSize_telemetry : CarTelemetryData.dataSize = 60 := by decide

theorem readUint_drop (w i : Nat) (buf : List Byte) (h : i + w ≤ buf.length) :
    readUint w (buf.drop i) = some (leNat ((buf.drop i).take w), buf.drop (i + w)) := by
  unfold readUint
  rw [if_pos (by rw [List.length_drop]; omega), List.drop_drop, Nat.add_comm]

theorem readInt8_drop (i : Nat) (buf : List Byte) (h : i + 1 ≤ buf.length) :
    readInt8 (buf.drop i) = some (toInt8 (leNat ((buf.drop i).take 1)), buf.drop (i + 1)) := by
  unfold readInt8
  rw [readUint_drop 1 i buf h]

theorem leNat_take_drop_succ (w i : Nat) (buf : List Byte) (h : i < buf.length) :
    leNat ((buf.drop i).take (w + 1)) =
      byteAt buf i + 256 * leNat ((buf.drop (i + 1)).take w) := by
  rw [List.drop_eq_getElem_cons h, List.take_succ_cons, leNat, byteAt,
    List.getD_eq_getElem _ _ h]

theorem leNat_take_zero (l : List Byte) : leNat (l.take 0) = 0 := by
  rw [List.take_zero, leNat]

theorem byteAt_take (buf : List Byte) (i k : Nat) (h : i < k) :
    byteAt (buf.take k) i = byteAt buf i := by
  unfold byteAt
  simp [List.getD_eq_getElem?_getD, List.getElem?_take, h]

theorem readUint_drop_leAt (w i : Nat) (buf : List Byte) (h : i + w ≤ buf.length) :
    readUint w (buf.drop i) = some (leAt buf i w, buf.drop (i + w)) :=
  readUint_drop w i buf h

theorem readInt8_drop_leAt (i : Nat) (buf : List Byte) (h : i + 1 ≤ buf.length) :
    readInt8 (buf.drop i) = some (toInt8 (leAt buf i 1), buf.drop (i + 1)) :=
  readInt8_drop i buf h

theorem readFloat32_drop (i : Nat) (buf : List Byte) (h : i + 4 ≤ buf.length) :
    readFloat32 (buf.drop i) =
      some (float32Store (leNat ((buf.drop i).take 4)), buf.drop (i + 4)) := by
  unfold readFloat32
  rw [readUint_drop 4 i buf h]

theorem readFloat32_drop_leAt (i : Nat) (buf : List Byte) (h : i + 4 ≤ buf.length) :
    readFloat32 (buf.drop i) = some (float32Store (leAt buf i 4), buf.drop (i + 4)) :=
  readFloat32_drop i buf h

theorem readFloat32Array4_drop (i : Nat) (buf : List Byte) (h : i + 16 ≤ buf.length) :
    readFloat32Array4 (buf.drop i) = some
      (⟨float32Store (leAt buf i 4), float32Store (leAt buf (i + 4) 4),
          float32Store (leAt buf (i + 4 + 4) 4), float32Store (leAt buf (i + 4 + 4 + 4) 4)⟩,
        buf.drop (i + 4 + 4 + 4 + 4)) := by
  unfold readFloat32Array4
  simp (disch := omega) only [readFloat32_drop_leAt]

theorem readArray4_drop (w i : Nat) (buf : List Byte) (h : i + 4 * w ≤ buf.length) :
    readArray4 w (buf.drop i) = some
      (⟨leAt buf i w, leAt buf (i + w) w, leAt buf (i + w + w) w, leAt buf (i + w + w + w) w⟩,
        buf.drop (i + w + w + w + w)) := by
  unfold readArray4
  simp (disch := omega) only [readUint_drop]
  rfl

theorem leAt_take (r : List Byte) (n i w : Nat) (h : i + w ≤ n) :
    leAt (r.take n) i w = leAt r i w := by
  unfold leAt
  rw [List.drop_take, List.take_take, Nat.min_eq_left (by omega)]

theorem leAt_drop (r : List Byte) (o i w : Nat) : leAt (r.drop o) i w = leAt r (o + i) w := by
  unfold leAt
  rw [List.drop_drop]

/-! ### Layout of the two decoders -/

theorem decodePacketHeader_layout (r : List Byte) (h : 29 ≤ r.length) :
    decodePacketHeader r = some
      (⟨byteAt r 0 + 256 * byteAt r 1, byteAt r 2, byteAt r 3, byteAt r 4, byteAt r 5,
        byteAt r 6,
        byteAt r 7 + 256 * (byteAt r 8 + 256 * (byteAt r 9 + 256 * (byteAt r 10 +
          256 * (byteAt r 11 + 256 * (byteAt r 12 + 256 * (byteAt r 13 +
          256 * byteAt r 14)))))),
        float32Store (byteAt r 15 + 256 * (byteAt r 16 + 256 * (byteAt r 17 +
          256 * byteAt r 18))),
        byteAt r 19 + 256 * (byteAt r 20 + 256 * (byteAt r 21 + 256 * byteAt r 22)),
        byteAt r 23 + 256 * (byteAt r 24 + 256 * (byteAt r 25 + 256 * byteAt r 26)),
        byteAt r 27, toInt8 (byteAt r 28)⟩, r.drop 29) := by
  have h0 : decodePacketHeader r = decodePacketHeader (r.drop 0) := by rw [List.drop_zero]
  rw [h0]
  unfold decodePacketHeader
  simp (disch := omega) only [readUint_drop, readInt8_drop, readFloat32_drop,
    leNat_take_drop_succ,
    leNat_take_zero, Nat.reduceAdd, Nat.mul_zero, Nat.add_zero, Nat.zero_add]

theorem binaryReadHeader_take (buf : List Byte) (h : 29 ≤ buf.length) :
    binaryReadHeader (buf.take 29) = some
      ⟨byteAt buf 0 + 256 * byteAt buf 1, byteAt buf 2, byteAt buf 3, byteAt buf 4,
        byteAt buf 5, byteAt buf 6,
        byteAt buf 7 + 256 * (byteAt buf 8 + 256 * (byteAt buf 9 + 256 * (byteAt buf 10 +
          256 * (byteAt buf 11 + 256 * (byteAt buf 12 + 256 * (byteAt buf 13 +
          256 * byteAt buf 14)))))),
        float32Store (byteAt buf 15 + 256 * (byteAt buf 16 + 256 * (byteAt buf 17 +
          256 * byteAt buf 18))),
        byteAt buf 19 + 256 * (byteAt buf 20 + 256 * (byteAt buf 21 + 256 * byteAt buf 22)),
        byteAt buf 23 + 256 * (byteAt buf 24 + 256 * (byteAt buf 25 + 256 * byteAt buf 26)),
        byteAt buf 27, toInt8 (byteAt buf 28)⟩ := by
  have hl : (buf.take 29).length = 29 := by rw [List.length_take]; omega
  unfold binaryReadHeader
  rw [dataSize_header, if_neg (by omega), List.take_take, Nat.min_self,
    decodePacketHeader_layout _ (by omega)]
  simp only [Option.map_some', byteAt_take, Nat.reduceLT]

theorem decodeCarTelemetryData_layout (r : List Byte) (h : 60 ≤ r.length) :
    decodeCarTelemetryData r = some ((telemetryAt r 0).stored, r.drop 60) := by
  have h0 : decodeCarTelemetryData r = decodeCarTelemetryData (r.drop 0) := by
    rw [List.drop_zero]
  rw [h0]
  unfold decodeCarTelemetryData telemetryAt CarTelemetryData.stored Array4.stored
  simp (disch := omega) only [readUint_drop_leAt, readInt8_drop_leAt, readArray4_drop,
    readFloat32_drop_leAt, readFloat32Array4_drop, Nat.reduceAdd, Nat.zero_add]

theorem telemetryAt_segment (r : List Byte) (o : Nat) :
    telemetryAt ((r.drop o).take 60) 0 = telemetryAt r o := by
  unfold telemetryAt
  simp (disch := omega) only [leAt_take, leAt_drop, Nat.zero_add, Nat.add_zero]

theorem telemetryAt_take (r : List Byte) (n o : Nat) (h : o + 60 ≤ n) :
    telemetryAt (r.take n) o = telemetryAt r o := by
  unfold telemetryAt
  simp (disch := omega) only [leAt_take]

theorem binaryReadTelemetry_segment (r : List Byte) (o : Nat) (h : o + 60 ≤ r.length) :
    binaryReadTelemetry ((r.drop o).take 60) = some (telemetryAt r o).stored := by
  have hl : ((r.drop o).take 60).length = 60 := by
    rw [List.length_take, List.length_drop]; omega
  unfold binaryReadTelemetry
  rw [dataSize_telemetry, if_neg (by omega), List.take_take, Nat.min_self,
    decodeCarTelemetryData_layout _ (by omega), Option.map_some', telemetryAt_segment]

theorem headerOf_packetId (buf : List Byte) (h : HDR_SIZE ≤ buf.length) :
    (headerOf buf).PacketId = byteAt buf 6 := by
  unfold headerOf
  rw [show HDR_SIZE = 29 from rfl, binaryReadHeader_take buf h]
  rfl

theorem headerOf_playerCarIndex (buf : List Byte) (h : HDR_SIZE ≤ buf.length) :
    (headerOf buf).PlayerCarIndex = byteAt buf 27 := by
  unfold headerOf
  rw [show HDR_SIZE = 29 from rfl, binaryReadHeader_take buf h]
  rfl

theorem byteAt_lt (buf : List Byte) (i : Nat) : byteAt buf i < 256 :=
  (buf.getD i 0).isLt

/-! ### Encoder against decoder -/

theorem leBytes_length (w x : Nat) : (leBytes w x).length = w := by
  induction w generalizing x with
  | zero => rfl
  | succ w ih => rw [leBytes, List.length_cons, ih]

theorem leNat_leBytes (w x : Nat) : leNat (leBytes w x) = x % 256 ^ w := by
  induction w generalizing x with
  | zero => simp [leBytes, leNat, Nat.mod_one]
  | succ w ih =>
    rw [leBytes, leNat, ih, pow_succ, Nat.mul_comm (256 ^ w) 256, Nat.mod_mul]

theorem readUint_append (w : Nat) (l1 l2 : List Byte) (h : l1.length = w) :
    readUint w (l1 ++ l2) = some (leNat l1, l2) := by
  unfold readUint
  rw [if_pos (by rw [List.length_append]; omega)]
  subst h
  rw [List.take_left, List.drop_left]

theorem readUint_leBytes (w x : Nat) (rest : List Byte) (h : x < 256 ^ w) :
    readUint w (leBytes w x ++ rest) = some (x, rest) := by
  rw [readUint_append w _ _ (leBytes_length w x), leNat_leBytes, Nat.mod_eq_of_lt h]

theorem toInt8_fromInt8 (x : Int) (h1 : -128 ≤ x) (h2 : x < 128) :
    toInt8 (fromInt8 x) = x := by
  unfold toInt8 fromInt8
  split <;> omega

theorem fromInt8_lt (x : Int) : fromInt8 x < 256 ^ 1 := by
  unfold fromInt8
  omega

theorem readInt8_leBytes (x : Int) (rest : List Byte) (h1 : -128 ≤ x) (h2 : x < 128) :
    readInt8 (leBytes 1 (fromInt8 x) ++ rest) = some (x, rest) := by
  unfold readInt8
  rw [readUint_leBytes 1 _ rest (fromInt8_lt x)]
  simp only [toInt8_fromInt8 x h1 h2]

theorem readFloat32_leBytes (x : Nat) (rest : List Byte) (h : x < 256 ^ 4) :
    readFloat32 (leBytes 4 x ++ rest) = some (float32Store x, rest) := by
  unfold readFloat32
  rw [readUint_leBytes 4 x rest h]

theorem readFloat32Array4_encode (a : Array4) (rest : List Byte) (h : a.InRange 4) :
    readFloat32Array4 (encodeArray4 4 a ++ rest) = some (a.stored, rest) := by
  obtain ⟨h0, h1, h2, h3⟩ := h
  unfold readFloat32Array4 encodeArray4 Array4.stored
  simp only [List.append_assoc, readFloat32_leBytes _ _ h0, readFloat32_leBytes _ _ h1,
    readFloat32_leBytes _ _ h2, readFloat32_leBytes _ _ h3]

theorem float32Store_of_not_signalling (x : Nat) (h : ¬ isSignallingNaN x) :
    float32Store x = x := by
  unfold float32Store
  rw [if_neg h]

theorem headerStored_eq (h : PacketHeader) (hn : h.NoSignallingNaN) : h.stored = h := by
  unfold PacketHeader.stored
  rw [float32Store_of_not_signalling _ hn]

theorem telemetryStored_eq (t : CarTelemetryData) (hn : t.NoSignallingNaN) :
    t.stored = t := by
  obtain ⟨h1, h2, h3, h4, h5, h6, h7⟩ := hn
  unfold CarTelemetryData.stored Array4.stored
  rw [float32Store_of_not_signalling _ h1, float32Store_of_not_signalling _ h2,
    float32Store_of_not_signalling _ h3, float32Store_of_not_signalling _ h4,
    float32Store_of_not_signalling _ h5, float32Store_of_not_signalling _ h6,
    float32Store_of_not_signalling _ h7]

theorem readArray4_encode (w : Nat) (a : Array4) (rest : List Byte) (h : a.InRange w) :
    readArray4 w (encodeArray4 w a ++ rest) = some (a, rest) := by
  obtain ⟨h0, h1, h2, h3⟩ := h
  unfold readArray4 encodeArray4
  simp only [List.append_assoc, readUint_leBytes _ _ _ h0, readUint_leBytes _ _ _ h1,
    readUint_leBytes _ _ _ h2, readUint_leBytes _ _ _ h3]

theorem encodeArray4_length (w : Nat) (a : Array4) : (encodeArray4 w a).length = 4 * w := by
  unfold encodeArray4
  simp only [List.length_append, leBytes_length]
  omega

theorem encodePacketHeader_length (h : PacketHeader) : (encodePacketHeader h).length = 29 := by
  unfold encodePacketHeader
  simp only [List.length_append, leBytes_length]

theorem encodeCarTelemetryData_length (t : CarTelemetryData) :
    (encodeCarTelemetryData t).length = 60 := by
  unfold encodeCarTelemetryData
  simp only [List.length_append, leBytes_length, encodeArray4_length]

theorem decodePacketHeader_encode (h : PacketHeader) (rest : List Byte) (hh : h.InRange) :
    decodePacketHeader (encodePacketHeader h ++ rest) = some (h.stored, rest) := by
  obtain ⟨h1, h2, h3, h4, h5, h6, h7, h8, h9, h10, h11, h12, h13⟩ := hh
  unfold decodePacketHeader encodePacketHeader
  simp only [List.append_assoc, readUint_leBytes _ _ _ h1, readUint_leBytes _ _ _ h2,
    readUint_leBytes _ _ _ h3, readUint_leBytes _ _ _ h4, readUint_leBytes _ _ _ h5,
    readUint_leBytes _ _ _ h6, readUint_leBytes _ _ _ h7, readFloat32_leBytes _ _ h8,
    readUint_leBytes _ _ _ h9, readUint_leBytes _ _ _ h10, readUint_leBytes _ _ _ h11,
    readInt8_leBytes _ _ h12 h13]
  rfl

theorem decodeCarTelemetryData_encode (t : CarTelemetryData) (rest : List Byte)
    (ht : t.InRange) :
    decodeCarTelemetryData (encodeCarTelemetryData t ++ rest) = some (t.stored, rest) := by
  obtain ⟨h1, h2, h3, h4, h5, ⟨h6, h6b⟩, h7, h8, h9, h10, h11, h12, h13, h14, h15, h16⟩ := ht
  unfold decodeCarTelemetryData encodeCarTelemetryData
  simp only [List.append_assoc, readUint_leBytes _ _ _ h1, readFloat32_leBytes _ _ h2,
    readFloat32_leBytes _ _ h3, readFloat32_leBytes _ _ h4, readUint_leBytes _ _ _ h5,
    readInt8_leBytes _ _ h6 h6b, readUint_leBytes _ _ _ h7, readUint_leBytes _ _ _ h8,
    readUint_leBytes _ _ _ h9, readUint_leBytes _ _ _ h10, readArray4_encode _ _ _ h11,
    readArray4_encode _ _ _ h12, readArray4_encode _ _ _ h13, readUint_leBytes _ _ _ h14,
    readFloat32Array4_encode _ _ h15, readArray4_encode _ _ _ h16]
  rfl

theorem binaryReadHeader_encode (h : PacketHeader) (hh : h.InRange) :
    binaryReadHeader (encodePacketHeader h) = some h.stored := by
  have hl := encodePacketHeader_length h
  unfold binaryReadHeader
  rw [dataSize_header, if_neg (by omega), List.take_of_length_le (by omega)]
  have := decodePacketHeader_encode h [] hh
  rw [List.append_nil] at this
  rw [this]
  rfl

theorem binaryReadTelemetry_encode (t : CarTelemetryData) (ht : t.InRange) :
    binaryReadTelemetry (encodeCarTelemetryData t) = some t.stored := by
  have hl := encodeCarTelemetryData_length t
  unfold binaryReadTelemetry
  rw [dataSize_telemetry, if_neg (by omega), List.take_of_length_le (by omega)]
  have := decodeCarTelemetryData_encode t [] ht
  rw [List.append_nil] at this
  rw [this]
  rfl

/-! ### The loop body, case by case -/

theorem slice_eq_some (buf : List Byte) (lo hi : Nat) (h1 : lo ≤ hi) (h2 : hi ≤ buf.length) :
    slice buf lo hi = some ((buf.drop lo).take (hi - lo)) := by
  unfold slice
  rw [if_pos ⟨h1, h2⟩]

theorem slice_header (buf : List Byte) (h : HDR_SIZE ≤ buf.length) :
    slice buf 0 HDR_SIZE = some (buf.take HDR_SIZE) := by
  rw [slice_eq_some buf 0 HDR_SIZE (Nat.zero_le _) h, List.drop_zero, Nat.sub_zero]

theorem processDatagram_short (N : Int) (st : SamplingState) (buf : List Byte) (n : Nat)
    (h : n < HDR_SIZE) : processDatagram N st buf n = ⟨st, [], none⟩ := by
  unfold processDatagram
  rw [if_pos h]

theorem processDatagram_small_buffer (N : Int) (st : SamplingState) (buf : List Byte) (n : Nat)
    (hn : HDR_SIZE ≤ n) (hbuf : buf.length < HDR_SIZE) :
    processDatagram N st buf n = ⟨st, [], some Panic.sliceOutOfRange⟩ := by
  unfold processDatagram
  rw [if_neg (by omega)]
  have : slice buf 0 HDR_SIZE = none := by
    unfold slice
    rw [if_neg (by omega)]
  rw [this]

theorem processDatagram_other_kind (N : Int) (st : SamplingState) (buf : List Byte) (n : Nat)
    (hn : HDR_SIZE ≤ n) (hbuf : HDR_SIZE ≤ buf.length)
    (hpid : (headerOf buf).PacketId ≠ PID_CAR_TELEMETRY) :
    processDatagram N st buf n = ⟨st, [Event.headerDecoded (headerOf buf)], none⟩ := by
  unfold processDatagram
  rw [if_neg (by omega), slice_header buf hbuf]
  simp only []
  rw [← headerOf, if_pos hpid]

theorem processDatagram_telemetry (N : Int) (st : SamplingState) (buf : List Byte) (n : Nat)
    (hn : HDR_SIZE ≤ n) (hbuf : HDR_SIZE ≤ buf.length)
    (hpid : (headerOf buf).PacketId = PID_CAR_TELEMETRY) :
    processDatagram N st buf n =
      match samplingFilter N st (headerOf buf).OverallFrameId with
      | (Verdict.divideByZero, st1) =>
        ⟨st1, [Event.headerDecoded (headerOf buf)], some Panic.divideByZero⟩
      | (Verdict.accept, st1) =>
        if n < payloadOffset (headerOf buf) + TEL_SIZE then
          ⟨st1, [Event.headerDecoded (headerOf buf)], none⟩
        else
          match slice buf (payloadOffset (headerOf buf))
              (payloadOffset (headerOf buf) + TEL_SIZE) with
          | none => ⟨st1, [Event.headerDecoded (headerOf buf)], some Panic.sliceOutOfRange⟩
          | some tb =>
            ⟨st1, [Event.headerDecoded (headerOf buf),
              Event.telemetryDecoded (payloadOffset (headerOf buf)),
              Event.sent ((binaryReadTelemetry tb).getD CarTelemetryData.zero)], none⟩
      | (_, st1) => ⟨st1, [Event.headerDecoded (headerOf buf)], none⟩ := by
  unfold processDatagram
  rw [if_neg (by omega), slice_header buf hbuf]
  simp only []
  rw [← headerOf, if_neg (by rw [hpid]; exact fun h => h rfl)]
  rfl

/-! ### The sampling code -/

theorem toUint32_of_range (N : Int) (h1 : 0 ≤ N) (h2 : N < 2 ^ 32) :
    toUint32 N = N.toNat := by
  unfold toUint32
  rw [Int.emod_eq_of_lt h1 h2]

theorem natMod_eq_zero_iff_intMod (f : Nat) (N : Int) (h : 0 ≤ N) :
    f % N.toNat = 0 ↔ (f : Int) % N = 0 := by
  obtain ⟨n, rfl⟩ := Int.eq_ofNat_of_zero_le h
  simp only [Int.toNat_ofNat]
  constructor
  · intro h0
    exact_mod_cast h0
  · intro h0
    exact_mod_cast h0

/-- Within the range of `uint32` the sampling code implements the stated
policy: accept exactly when the packet is not a duplicate and the frame id is
a multiple of `N`; the state moves to `(f, false)` on acceptance only. -/
theorem samplingFilter_policy_of_range (N : Int) (st : SamplingState) (f : Nat)
    (h1 : 1 ≤ N) (h2 : N < 2 ^ 32) :
    ((samplingFilter N st f).1 = Verdict.accept ↔
        (st.firstPacket = true ∨ f ≠ st.lastFrame) ∧ (f : Int) % N = 0) ∧
      ((samplingFilter N st f).1 = Verdict.accept →
        (samplingFilter N st f).2 = ⟨f, false⟩) ∧
      ((samplingFilter N st f).1 ≠ Verdict.accept → (samplingFilter N st f).2 = st) := by
  have hN : toUint32 N = N.toNat := toUint32_of_range N (by omega) h2
  have hmod := natMod_eq_zero_iff_intMod f N (by omega)
  obtain ⟨lf, fp⟩ := st
  unfold samplingFilter
  rw [hN]
  have hpos : N.toNat ≠ 0 := by omega
  rw [← hmod]
  cases fp <;> by_cases hf : f = lf <;> by_cases hm : f % N.toNat = 0 <;>
    first
      | (subst hf; simp [hm, hpos])
      | simp [hf, hm, hpos]

theorem samplingFilter_no_panic (N : Int) (st : SamplingState) (f : Nat)
    (h : toUint32 N ≠ 0) : (samplingFilter N st f).1 ≠ Verdict.divideByZero := by
  unfold samplingFilter
  rw [if_neg h]
  split
  · simp
  · split <;> simp

/-- Whenever `uint32(N)` is not zero the loop body raises no panic on a
4096-byte buffer. -/
theorem processDatagram_no_panic (N : Int) (st : SamplingState) (buf : List Byte) (n : Nat)
    (hN : toUint32 N ≠ 0) (hbuf : buf.length = BUF_SIZE) (hn : n ≤ BUF_SIZE) :
    (processDatagram N st buf n).panic = none := by
  have hB : BUF_SIZE = 4096 := rfl
  have hH : HDR_SIZE = 29 := rfl
  by_cases hn29 : n < HDR_SIZE
  · rw [processDatagram_short N st buf n hn29]
  · by_cases hpid : (headerOf buf).PacketId = PID_CAR_TELEMETRY
    · rw [processDatagram_telemetry N st buf n (by omega) (by omega) hpid]
      have hnp := samplingFilter_no_panic N st (headerOf buf).OverallFrameId hN
      rcases hsf : samplingFilter N st (headerOf buf).OverallFrameId with ⟨v, st1⟩
      rw [hsf] at hnp
      cases v
      · by_cases hoff : n < payloadOffset (headerOf buf) + TEL_SIZE
        · simp only [if_pos hoff]
        · simp only [if_neg hoff]
          rw [slice_eq_some buf _ _ (Nat.le_add_right _ _) (by omega)]
      · rfl
      · rfl
      · exact absurd rfl hnp
    · rw [processDatagram_other_kind N st buf n (by omega) (by omega) hpid]

/-! ### The Hub -/

theorem rangeClients_writes (ok : Conn → Bool) (d : CarTelemetryData) (order cl : List Conn) :
    (rangeClients ok d order cl).writes = order.map (fun c => (c, d)) := by
  induction order generalizing cl with
  | nil => rfl
  | cons c rest ih =>
    unfold rangeClients
    split
    · simp only [ih, List.map_cons]
    · simp only [ih, List.map_cons]

theorem rangeClients_clients (ok : Conn → Bool) (d : CarTelemetryData) (order cl : List Conn) :
    (rangeClients ok d order cl).clients =
      cl.filter (fun x => ok x || !(order.contains x)) := by
  induction order generalizing cl with
  | nil => simp [rangeClients]
  | cons c rest ih =>
    unfold rangeClients
    split
    · rename_i hc
      simp only [ih]
      apply List.filter_congr
      intro x _
      by_cases hx : x = c
      · subst hx; simp [hc]
      · simp [hx]
    · rename_i hc
      simp only [ih, mapDelete, List.filter_filter]
      apply List.filter_congr
      intro x _
      by_cases hx : x = c
      · subst hx; simp [hc]
      · simp [hx]

theorem rangeClients_clients_of_perm (ok : Conn → Bool) (d : CarTelemetryData)
    (order S : List Conn) (hperm : order.Perm S) :
    (rangeClients ok d order S).clients = S.filter (fun x => ok x) := by
  rw [rangeClients_clients]
  apply List.filter_congr
  intro x hx
  have : x ∈ order := hperm.mem_iff.mpr hx
  simp [this]

theorem map_fst_map_pair (o : List Conn) (x : CarTelemetryData) :
    (o.map (fun y => (y, x))).map Prod.fst = o := by
  simp [List.map_map, Function.comp_def]

/-! ### Consecutive packets in the sampling code -/

theorem samplingFilter_duplicate (N : Int) (f : Nat) :
    samplingFilter N ⟨f, false⟩ f = (Verdict.rejectDuplicate, ⟨f, false⟩) := by
  simp [samplingFilter]

theorem samplingFilter_cases (N : Int) (st : SamplingState) (f : Nat) :
    samplingFilter N st f = (Verdict.rejectDuplicate, st) ∨
      samplingFilter N st f = (Verdict.divideByZero, st) ∨
      samplingFilter N st f = (Verdict.rejectModulo, st) ∨
      samplingFilter N st f = (Verdict.accept, ⟨f, false⟩) := by
  unfold samplingFilter
  split
  · exact Or.inl rfl
  · split
    · exact Or.inr (Or.inl rfl)
    · split
      · exact Or.inr (Or.inr (Or.inl rfl))
      · exact Or.inr (Or.inr (Or.inr rfl))

theorem runFilter_cons (N : Int) (st : SamplingState) (f : Nat) (fs : List Nat)
    (h : (samplingFilter N st f).1 ≠ Verdict.divideByZero) :
    runFilter N st (f :: fs) =
      (samplingFilter N st f).1 :: runFilter N (samplingFilter N st f).2 fs := by
  rcases hsf : samplingFilter N st f with ⟨v, st1⟩
  rw [hsf] at h
  cases v <;> simp [runFilter, hsf] at h ⊢

theorem runFilter_singleton (N : Int) (st : SamplingState) (f : Nat) :
    runFilter N st [f] = [(samplingFilter N st f).1] := by
  rcases hsf : samplingFilter N st f with ⟨v, st1⟩
  cases v <;> simp [runFilter, hsf]

theorem samplingFilter_one_accept (a f : Nat) (h : a < f) :
    samplingFilter 1 ⟨a, false⟩ f = (Verdict.accept, ⟨f, false⟩) := by
  have hne : f ≠ a := by omega
  simp [samplingFilter, toUint32, hne, Nat.mod_one]

theorem samplingFilter_one_first (a f : Nat) :
    samplingFilter 1 ⟨a, true⟩ f = (Verdict.accept, ⟨f, false⟩) := by
  simp [samplingFilter, toUint32, Nat.mod_one]

theorem runFilter_one_chain (a : Nat) (fs : List Nat) (h : List.Chain (· < ·) a fs) :
    runFilter 1 ⟨a, false⟩ fs = List.replicate fs.length Verdict.accept := by
  induction fs generalizing a with
  | nil => rfl
  | cons f rest ih =>
    rw [List.chain_cons] at h
    rw [runFilter_cons 1 _ f rest (by rw [samplingFilter_one_accept a f h.1]; exact fun hv => Verdict.noConfusion hv),
      samplingFilter_one_accept a f h.1]
    simp only [List.length_cons, List.replicate_succ]
    rw [ih f h.2]

/-! ### What the loop body reads -/

theorem samplingFilter_accept_state (N : Int) (st : SamplingState) (f : Nat)
    (h : (samplingFilter N st f).1 = Verdict.accept) :
    samplingFilter N st f = (Verdict.accept, ⟨f, false⟩) := by
  unfold samplingFilter at h ⊢
  split
  · rename_i h1; rw [if_pos h1] at h; cases h
  · rename_i h1
    rw [if_neg h1] at h
    split
    · rename_i h2; rw [if_pos h2] at h; cases h
    · rename_i h2
      rw [if_neg h2] at h
      split
      · rename_i h3; rw [if_pos h3] at h; cases h
      · rfl

theorem headerOf_take (buf : List Byte) (n : Nat) (hn : HDR_SIZE ≤ n) :
    headerOf (buf.take n) = headerOf buf := by
  unfold headerOf
  rw [List.take_take, Nat.min_eq_left hn]

theorem headerOf_eq (buf : List Byte) (h : HDR_SIZE ≤ buf.length) :
    headerOf buf =
      ⟨byteAt buf 0 + 256 * byteAt buf 1, byteAt buf 2, byteAt buf 3, byteAt buf 4,
        byteAt buf 5, byteAt buf 6,
        byteAt buf 7 + 256 * (byteAt buf 8 + 256 * (byteAt buf 9 + 256 * (byteAt buf 10 +
          256 * (byteAt buf 11 + 256 * (byteAt buf 12 + 256 * (byteAt buf 13 +
          256 * byteAt buf 14)))))),
        float32Store (byteAt buf 15 + 256 * (byteAt buf 16 + 256 * (byteAt buf 17 +
          256 * byteAt buf 18))),
        byteAt buf 19 + 256 * (byteAt buf 20 + 256 * (byteAt buf 21 + 256 * byteAt buf 22)),
        byteAt buf 23 + 256 * (byteAt buf 24 + 256 * (byteAt buf 25 + 256 * byteAt buf 26)),
        byteAt buf 27, toInt8 (byteAt buf 28)⟩ := by
  unfold headerOf
  rw [show HDR_SIZE = 29 from rfl, binaryReadHeader_take buf h]
  rfl

/-- The loop body reads the buffer only below the received length. -/
theorem processDatagram_take (N : Int) (st : SamplingState) (buf : List Byte) (n : Nat)
    (hn : n ≤ buf.length) :
    processDatagram N st buf n = processDatagram N st (buf.take n) n := by
  have hT : TEL_SIZE = 60 := rfl
  have hl : (buf.take n).length = n := by rw [List.length_take]; omega
  by_cases hs : n < HDR_SIZE
  · rw [processDatagram_short N st buf n hs, processDatagram_short N st _ n hs]
  · have hh := headerOf_take buf n (by omega)
    by_cases hpid : (headerOf buf).PacketId = PID_CAR_TELEMETRY
    · rw [processDatagram_telemetry N st buf n (by omega) (by omega) hpid,
        processDatagram_telemetry N st (buf.take n) n (by omega) (by omega) (by rw [hh]; exact hpid),
        hh]
      rcases samplingFilter N st (headerOf buf).OverallFrameId with ⟨v, st1⟩
      cases v
      · by_cases hoff : n < payloadOffset (headerOf buf) + TEL_SIZE
        · simp only [if_pos hoff]
        · simp only [if_neg hoff]
          rw [slice_eq_some buf _ _ (Nat.le_add_right _ _) (by omega),
            slice_eq_some (buf.take n) _ _ (Nat.le_add_right _ _) (by omega),
            Nat.add_sub_cancel_left, List.drop_take, List.take_take,
            Nat.min_eq_left (by omega)]
      · rfl
      · rfl
      · rfl
    · rw [processDatagram_other_kind N st buf n (by omega) (by omega) hpid,
        processDatagram_other_kind N st (buf.take n) n (by omega) (by omega)
          (by rw [hh]; exact hpid), hh]

/-! ### Successive broadcasts and registration -/

theorem rangeClients_clients_subset (ok : Conn → Bool) (d : CarTelemetryData)
    (order cl : List Conn) : (rangeClients ok d order cl).clients ⊆ cl := by
  rw [rangeClients_clients]
  exact fun x hx => (List.mem_filter.mp hx).1

theorem rangeClients_closed (ok : Conn → Bool) (d : CarTelemetryData) (order cl : List Conn) :
    (rangeClients ok d order cl).closed = order.filter (fun x => !ok x) := by
  induction order generalizing cl with
  | nil => rfl
  | cons c rest ih =>
    unfold rangeClients
    split
    · rename_i hc
      simp only [ih, List.filter_cons, hc, Bool.not_true, Bool.false_eq_true, if_false]
    · rename_i hc
      simp only [ih, List.filter_cons, hc, Bool.not_false, if_true]

theorem rangeClients_closed_not_mem (ok : Conn → Bool) (d : CarTelemetryData)
    (order cl : List Conn) (c : Conn) (hc : c ∈ (rangeClients ok d order cl).closed) :
    c ∉ (rangeClients ok d order cl).clients := by
  rw [rangeClients_closed, List.mem_filter] at hc
  rw [rangeClients_clients, List.mem_filter]
  intro h
  have h1 := hc.1
  have h2 := hc.2
  have h3 := h.2
  simp [h1] at h3
  simp [h3] at h2

theorem runCycles_mem (h : Hub) (bs : List Broadcast) (hord : h.ordersEnumerate bs = true)
    (r : CycleResult) (hr : r ∈ h.runCycles bs) :
    r.clients ⊆ h.clients ∧ r.writes.map Prod.fst ⊆ h.clients := by
  induction bs generalizing h with
  | nil => simp [Hub.runCycles] at hr
  | cons b rest ih =>
    simp only [Hub.ordersEnumerate, Bool.and_eq_true, decide_eq_true_eq] at hord
    simp only [Hub.runCycles, List.mem_cons] at hr
    have hsub : (h.runCycle b.writeOk b.data b.order).clients ⊆ h.clients :=
      rangeClients_clients_subset _ _ _ _
    rcases hr with hr | hr
    · subst hr
      refine ⟨hsub, ?_⟩
      unfold Hub.runCycle
      rw [rangeClients_writes, map_fst_map_pair]
      exact hord.1.subset
    · have := ih _ hord.2 hr
      exact ⟨fun x hx => hsub (this.1 hx), fun x hx => hsub (this.2 hx)⟩

theorem mem_mapInsert (S : List Conn) (c x : Conn) : x ∈ mapInsert S c ↔ x = c ∨ x ∈ S := by
  unfold mapInsert
  split
  · rename_i hc
    have hc2 : c ∈ S := by simpa using hc
    constructor
    · exact fun hx => Or.inr hx
    · rintro (rfl | hx)
      · exact hc2
      · exact hx
  · simp

theorem nodup_mapInsert (S : List Conn) (c : Conn) (hS : S.Nodup) : (mapInsert S c).Nodup := by
  unfold mapInsert
  split
  · exact hS
  · rename_i hc
    have hc2 : c ∉ S := by simpa using hc
    exact List.nodup_cons.mpr ⟨hc2, hS⟩

/-! ### Writes that never return -/

theorem rangeClientsBlocking_of_no_block (outcome : Conn → WriteOutcome)
    (d : CarTelemetryData) (order cl : List Conn)
    (h : ∀ x ∈ order, outcome x ≠ WriteOutcome.blocked) :
    rangeClientsBlocking outcome d order cl =
      ⟨(rangeClients (fun x => decide (outcome x = WriteOutcome.ok)) d order cl).writes,
        (rangeClients (fun x => decide (outcome x = WriteOutcome.ok)) d order cl).closed,
        (rangeClients (fun x => decide (outcome x = WriteOutcome.ok)) d order cl).clients,
        true⟩ := by
  induction order generalizing cl with
  | nil => rfl
  | cons c rest ih =>
    have hrest : ∀ x ∈ rest, outcome x ≠ WriteOutcome.blocked :=
      fun x hx => h x (List.mem_cons_of_mem _ hx)
    have hc := h c (List.mem_cons_self _ _)
    unfold rangeClientsBlocking rangeClients
    cases ho : outcome c with
    | ok => simp [ih _ hrest]
    | failed => simp [ih _ hrest]
    | blocked => exact absurd ho hc

theorem rangeClientsBlocking_of_block (outcome : Conn → WriteOutcome)
    (d : CarTelemetryData) (pre post cl : List Conn) (c : Conn)
    (hpre : ∀ x ∈ pre, outcome x ≠ WriteOutcome.blocked)
    (hc : outcome c = WriteOutcome.blocked) :
    (rangeClientsBlocking outcome d (pre ++ c :: post) cl).completed = false ∧
      (rangeClientsBlocking outcome d (pre ++ c :: post) cl).writes =
        (pre ++ [c]).map (fun x => (x, d)) := by
  induction pre generalizing cl with
  | nil =>
    simp [rangeClientsBlocking, hc]
  | cons a rest ih =>
    have hrest : ∀ x ∈ rest, outcome x ≠ WriteOutcome.blocked :=
      fun x hx => hpre x (List.mem_cons_of_mem _ hx)
    have ha := hpre a (List.mem_cons_self _ _)
    rw [List.cons_append]
    unfold rangeClientsBlocking
    cases ho : outcome a with
    | ok => simp [ih _ hrest]
    | failed => simp [ih _ hrest]
    | blocked => exact absurd ho ha

/-! ### Parsing the sampling interval -/

theorem digitChar_toNat (d : Nat) (h : d < 10) : (digitChar d).toNat = 48 + d := by
  unfold digitChar
  interval_cases d <;> rfl

theorem digitChar_ne_sign (d : Nat) (h : d < 10) :
    ¬ (digitChar d = '+' ∨ digitChar d = '-') := by
  intro hs
  have h1 := digitChar_toNat d h
  have hp : '+'.toNat = 43 := rfl
  have hm : '-'.toNat = 45 := rfl
  rcases hs with hs | hs <;> rw [hs] at h1 <;> omega

theorem decimalValue_cons (d : Nat) (ds : List Nat) :
    decimalValue (d :: ds) = d * 10 ^ ds.length + decimalValue ds := by
  unfold decimalValue
  rw [List.reverse_cons, Nat.ofDigits_append, Nat.ofDigits_singleton, List.length_reverse]
  rw [Nat.add_comm, Nat.mul_comm]

theorem decimalValue_nil : decimalValue [] = 0 := rfl

theorem parseUintLoop_digits (ds : List Nat) (n : Nat) (tail : List Char)
    (hd : ∀ d ∈ ds, d < 10) (hb : n * 10 ^ ds.length + decimalValue ds < 2 ^ 64) :
    parseUintLoop n (ds.map digitChar ++ tail) =
      parseUintLoop (n * 10 ^ ds.length + decimalValue ds) tail := by
  induction ds generalizing n with
  | nil => simp [decimalValue_nil]
  | cons d rest ih =>
    have hd0 : d < 10 := hd d (List.mem_cons_self _ _)
    have hrest : ∀ x ∈ rest, x < 10 := fun x hx => hd x (List.mem_cons_of_mem _ hx)
    have hc := digitChar_toNat d hd0
    rw [decimalValue_cons, List.length_cons, pow_succ] at hb
    have hP : 1 ≤ 10 ^ rest.length := Nat.one_le_pow _ _ (by decide)
    have hmul : (n * 10 + d) * 10 ^ rest.length =
        n * (10 ^ rest.length * 10) + d * 10 ^ rest.length := by ring
    have hle : n * 10 + d ≤ (n * 10 + d) * 10 ^ rest.length := Nat.le_mul_of_pos_right _ hP
    have hb2 : (n * 10 + d) * 10 ^ rest.length + decimalValue rest < 2 ^ 64 := by
      rw [hmul]; omega
    have h64 : (2 : Nat) ^ 64 = 18446744073709551616 := by norm_num
    rw [List.map_cons, List.cons_append, parseUintLoop, hc]
    rw [if_neg (by omega), if_neg (by omega), if_neg (by omega)]
    rw [show 48 + d - 48 = d by omega, ih (n * 10 + d) hrest hb2]
    rw [decimalValue_cons, List.length_cons, pow_succ, hmul]
    congr 1
    omega

theorem ParseUint_digits (ds : List Nat) (hds : ds ≠ []) (hd : ∀ d ∈ ds, d < 10)
    (hv : decimalValue ds < 2 ^ 64) :
    ParseUint (ds.map digitChar) = (decimalValue ds, none) := by
  have h := parseUintLoop_digits ds 0 [] hd (by omega)
  rw [List.append_nil, Nat.zero_mul, Nat.zero_add] at h
  cases ds with
  | nil => exact absurd rfl hds
  | cons d rest =>
    rw [List.map_cons] at h ⊢
    show parseUintLoop 0 (digitChar d :: List.map digitChar rest) = _
    rw [h, parseUintLoop]

theorem ParseUint_nondigit (pre : List Nat) (c : Char) (rest : List Char)
    (hpre : ∀ d ∈ pre, d < 10) (hv : decimalValue pre < 2 ^ 64)
    (hc : c.toNat < 48 ∨ 57 < c.toNat) :
    ParseUint (pre.map digitChar ++ c :: rest) = (0, some NumError.errSyntax) := by
  have h := parseUintLoop_digits pre 0 (c :: rest) hpre (by omega)
  rw [Nat.zero_mul, Nat.zero_add, parseUintLoop, if_pos hc] at h
  cases pre with
  | nil =>
    rw [List.map_nil, List.nil_append] at h ⊢
    unfold ParseUint
    exact h
  | cons d pre1 =>
    rw [List.map_cons, List.cons_append] at h ⊢
    unfold ParseUint
    exact h

theorem ParseInt_cons_syntax (c : Char) (cs : List Char)
    (h : ParseUint (if c = '+' ∨ c = '-' then cs else c :: cs) = (0, some NumError.errSyntax)) :
    ParseInt (c :: cs) = (0, some NumError.errSyntax) := by
  unfold ParseInt
  simp only [h]

theorem ParseInt_cons_value (c : Char) (cs : List Char) (un : Nat)
    (h : ParseUint (if c = '+' ∨ c = '-' then cs else c :: cs) = (un, none))
    (hr : if c = '-' then un ≤ 2 ^ 63 else un < 2 ^ 63) :
    ParseInt (c :: cs) = (if c = '-' then -(un : Int) else (un : Int), none) := by
  unfold ParseInt
  simp only [h]
  by_cases hc : c = '-'
  · rw [if_pos hc] at hr
    rw [if_neg (by rintro ⟨h1, _⟩; exact h1 hc), if_neg (by rintro ⟨_, h2⟩; omega)]
  · rw [if_neg hc] at hr
    rw [if_neg (by rintro ⟨_, h2⟩; omega), if_neg (by rintro ⟨h1, _⟩; exact hc h1)]

theorem ParseInt_decimal (sign : List Char) (ds : List Nat)
    (hsign : sign = [] ∨ sign = ['+'] ∨ sign = ['-'])
    (hds : ds ≠ []) (hd : ∀ d ∈ ds, d < 10)
    (hr : if sign = ['-'] then decimalValue ds ≤ 2 ^ 63 else decimalValue ds < 2 ^ 63) :
    ParseInt (sign ++ ds.map digitChar) =
      (if sign = ['-'] then -(decimalValue ds : Int) else (decimalValue ds : Int), none) := by
  have hv : decimalValue ds < 2 ^ 64 := by
    split at hr <;> omega
  have hU := ParseUint_digits ds hds hd hv
  rcases hsign with rfl | rfl | rfl
  · cases ds with
    | nil => exact absurd rfl hds
    | cons d rest =>
      have hd0 : d < 10 := hd d (List.mem_cons_self _ _)
      have hns := digitChar_ne_sign d hd0
      have hnm : digitChar d ≠ '-' := fun h => hns (Or.inr h)
      rw [List.nil_append, List.map_cons] at *
      rw [ParseInt_cons_value (digitChar d) _ (decimalValue (d :: rest))
        (by rw [if_neg hns]; exact hU) (by rw [if_neg hnm]; simpa using hr)]
      simp [hnm]
  · rw [List.singleton_append,
      ParseInt_cons_value '+' _ (decimalValue ds) (by simpa using hU) (by simpa using hr)]
    simp
  · rw [List.singleton_append,
      ParseInt_cons_value '-' _ (decimalValue ds) (by simpa using hU) (by simpa using hr)]
    simp

theorem ParseInt_nondigit (sign : List Char) (pre : List Nat) (c : Char) (rest : List Char)
    (hsign : sign = [] ∨ sign = ['+'] ∨ sign = ['-'])
    (hpre : ∀ d ∈ pre, d < 10) (hv : decimalValue pre < 2 ^ 64)
    (hc : c.toNat < 48 ∨ 57 < c.toNat)
    (hcs : sign = [] → pre = [] → c ≠ '+' ∧ c ≠ '-') :
    ParseInt (sign ++ (pre.map digitChar ++ c :: rest)) = (0, some NumError.errSyntax) := by
  have hU := ParseUint_nondigit pre c rest hpre hv hc
  rcases hsign with rfl | rfl | rfl
  · cases pre with
    | nil =>
      have := hcs rfl rfl
      rw [List.nil_append, List.map_nil, List.nil_append] at *
      exact ParseInt_cons_syntax c rest (by rw [if_neg (by tauto)]; exact hU)
    | cons d pre1 =>
      have hd0 : d < 10 := hpre d (List.mem_cons_self _ _)
      have hns := digitChar_ne_sign d hd0
      rw [List.nil_append, List.map_cons, List.cons_append] at *
      exact ParseInt_cons_syntax _ _ (by rw [if_neg hns]; exact hU)
  · rw [List.singleton_append]
    exact ParseInt_cons_syntax '+' _ (by simpa using hU)
  · rw [List.singleton_append]
    exact ParseInt_cons_syntax '-' _ (by simpa using hU)

/-! ### Overflow, signs and the shape of a string -/

theorem parseUintLoop_overflow (ds : List Nat) (n : Nat) (tail : List Char)
    (hd : ∀ d ∈ ds, d < 10) (hn : n < 2 ^ 64)
    (hb : 2 ^ 64 ≤ n * 10 ^ ds.length + decimalValue ds) :
    parseUintLoop n (ds.map digitChar ++ tail) = (2 ^ 64 - 1, some NumError.errRange) := by
  induction ds generalizing n with
  | nil =>
    rw [decimalValue_nil, List.length_nil, pow_zero] at hb
    omega
  | cons d rest ih =>
    have hd0 : d < 10 := hd d (List.mem_cons_self _ _)
    have hrest : ∀ x ∈ rest, x < 10 := fun x hx => hd x (List.mem_cons_of_mem _ hx)
    have hc := digitChar_toNat d hd0
    rw [decimalValue_cons, List.length_cons, pow_succ 10 rest.length] at hb
    have hmul : (n * 10 + d) * 10 ^ rest.length =
        n * (10 ^ rest.length * 10) + d * 10 ^ rest.length := by ring
    have h64 : (2 : Nat) ^ 64 = 18446744073709551616 := by norm_num
    rw [List.map_cons, List.cons_append, parseUintLoop, hc, if_neg (by omega)]
    by_cases h1 : 2 ^ 64 / 10 + 1 ≤ n
    · rw [if_pos h1]
    · rw [if_neg h1]
      by_cases h2 : 2 ^ 64 - 1 < n * 10 + (48 + d - 48)
      · rw [if_pos h2]
      · rw [if_neg h2, show 48 + d - 48 = d by omega]
        exact ih (n * 10 + d) hrest (by omega) (by rw [hmul]; omega)

theorem ParseUint_overflow (pre : List Nat) (rest : List Char) (hpre : ∀ d ∈ pre, d < 10)
    (hv : 2 ^ 64 ≤ decimalValue pre) :
    ParseUint (pre.map digitChar ++ rest) = (2 ^ 64 - 1, some NumError.errRange) := by
  have h := parseUintLoop_overflow pre 0 rest hpre (by norm_num) (by omega)
  cases pre with
  | nil =>
    rw [decimalValue_nil] at hv
    exact absurd hv (by norm_num)
  | cons d pre1 =>
    rw [List.map_cons, List.cons_append] at h ⊢
    exact h

/-- The value `ParseInt` returns, from what `ParseUint` returns on the part
after the sign. -/
theorem ParseInt_sign_body (sign body : List Char) (un : Nat) (e : Option NumError)
    (hsign : sign = [] ∨ sign = ['+'] ∨ sign = ['-'])
    (hhead : sign = [] → ∀ c ∈ body.head?, c ≠ '+' ∧ c ≠ '-')
    (h : ParseUint body = (un, e)) :
    (ParseInt (sign ++ body)).1 =
      (if e = some NumError.errSyntax then 0
        else if sign ≠ ['-'] ∧ 2 ^ 63 ≤ un then 2 ^ 63 - 1
        else if sign = ['-'] ∧ 2 ^ 63 < un then -(2 ^ 63)
        else if sign = ['-'] then -(un : Int) else (un : Int)) := by
  have key : ∀ (c : Char) (cs : List Char),
      ParseUint (if c = '+' ∨ c = '-' then cs else c :: cs) = (un, e) →
      (ParseInt (c :: cs)).1 =
        (if e = some NumError.errSyntax then 0
          else if c ≠ '-' ∧ 2 ^ 63 ≤ un then 2 ^ 63 - 1
          else if c = '-' ∧ 2 ^ 63 < un then -(2 ^ 63)
          else if c = '-' then -(un : Int) else (un : Int)) := by
    intro c cs hu
    unfold ParseInt
    simp only [hu]
    cases e with
    | none => simp only [reduceCtorEq, if_false]; split <;> [rfl; (split <;> rfl)]
    | some x =>
      cases x with
      | errSyntax => simp
      | errRange =>
        simp only [Option.some.injEq, reduceCtorEq, if_false]
        split <;> [rfl; (split <;> rfl)]
  rcases hsign with rfl | rfl | rfl
  · cases body with
    | nil =>
      have : e = some NumError.errSyntax := by
        have := h
        simp only [ParseUint, Prod.mk.injEq] at this
        exact this.2.symm
      simp [ParseInt, this]
    | cons c cs =>
      have hc := hhead rfl c (by simp)
      rw [List.nil_append, key c cs (by rw [if_neg (by tauto)]; exact h)]
      simp [hc.2]
  · rw [List.singleton_append, key '+' body (by simpa using h)]
    simp
  · rw [List.singleton_append, key '-' body (by simpa using h)]
    simp



theorem ParseUint_nil : ParseUint [] = (0, some NumError.errSyntax) := rfl

theorem digitChar_of_digit (c : Char) (h : ¬ (c.toNat < 48 ∨ 57 < c.toNat)) :
    c = digitChar (c.toNat - 48) ∧ c.toNat - 48 < 10 := by
  unfold digitChar
  constructor
  · rw [show 48 + (c.toNat - 48) = c.toNat by omega, Char.ofNat_toNat]
  · omega

theorem digits_split (l : List Char) :
    ∃ (pre : List Nat) (rest : List Char), (∀ d ∈ pre, d < 10) ∧
      (∀ c ∈ rest.head?, c.toNat < 48 ∨ 57 < c.toNat) ∧ l = pre.map digitChar ++ rest := by
  induction l with
  | nil => exact ⟨[], [], by simp, by simp, rfl⟩
  | cons c cs ih =>
    by_cases hc : c.toNat < 48 ∨ 57 < c.toNat
    · exact ⟨[], c :: cs, by simp, by simpa using hc, rfl⟩
    · obtain ⟨pre, rest, h1, h2, h3⟩ := ih
      have hd := digitChar_of_digit c hc
      refine ⟨(c.toNat - 48) :: pre, rest, ?_, h2, ?_⟩
      · intro d hdm
        rcases List.mem_cons.mp hdm with rfl | hdm
        · exact hd.2
        · exact h1 d hdm
      · rw [List.map_cons, List.cons_append, ← hd.1, ← h3]

theorem string_split (s : String) :
    ∃ (sign : List Char) (pre : List Nat) (rest : List Char),
      (sign = [] ∨ sign = ['+'] ∨ sign = ['-']) ∧ (∀ d ∈ pre, d < 10) ∧
      (∀ c ∈ rest.head?, c.toNat < 48 ∨ 57 < c.toNat) ∧
      (sign = [] → pre = [] → ∀ c ∈ rest.head?, c ≠ '+' ∧ c ≠ '-') ∧
      s = ⟨sign ++ (pre.map digitChar ++ rest)⟩ := by
  obtain ⟨l⟩ := s
  cases l with
  | nil => exact ⟨[], [], [], Or.inl rfl, by simp, by simp, by simp, rfl⟩
  | cons c cs =>
    by_cases hp : c = '+'
    · obtain ⟨pre, rest, h1, h2, h3⟩ := digits_split cs
      exact ⟨['+'], pre, rest, Or.inr (Or.inl rfl), h1, h2, by simp, by rw [hp, h3]; rfl⟩
    · by_cases hm : c = '-'
      · obtain ⟨pre, rest, h1, h2, h3⟩ := digits_split cs
        exact ⟨['-'], pre, rest, Or.inr (Or.inr rfl), h1, h2, by simp, by rw [hm, h3]; rfl⟩
      · obtain ⟨pre, rest, h1, h2, h3⟩ := digits_split (c :: cs)
        refine ⟨[], pre, rest, Or.inl rfl, h1, h2, ?_, by rw [h3]; rfl⟩
        intro _ hpre x hx
        subst hpre
        rw [List.map_nil, List.nil_append] at h3
        rw [← h3] at hx
        simp only [List.head?_cons, Option.mem_def, Option.some.injEq] at hx
        subst hx
        exact ⟨hp, hm⟩

/-! ### What a cycle closes -/

theorem rangeClients_closed_decide (outcome : Conn → WriteOutcome) (d : CarTelemetryData)
    (order cl : List Conn) (h : ∀ x ∈ order, outcome x ≠ WriteOutcome.blocked) :
    (rangeClients (fun x => decide (outcome x = WriteOutcome.ok)) d order cl).closed =
      order.filter (fun x => decide (outcome x = WriteOutcome.failed)) := by
  rw [rangeClients_closed]
  apply List.filter_congr
  intro x hx
  have := h x hx
  cases ho : outcome x <;> simp [ho] at this ⊢

theorem rangeClientsBlocking_prefix (outcome : Conn → WriteOutcome)
    (d : CarTelemetryData) (pre post cl : List Conn) (c : Conn)
    (hpre : ∀ x ∈ pre, outcome x ≠ WriteOutcome.blocked)
    (hc : outcome c = WriteOutcome.blocked) :
    (rangeClientsBlocking outcome d (pre ++ c :: post) cl).closed =
        pre.filter (fun x => decide (outcome x = WriteOutcome.failed)) ∧
      (rangeClientsBlocking outcome d (pre ++ c :: post) cl).clients =
        cl.filter (fun x => !(decide (x ∈ pre) && decide (outcome x = WriteOutcome.failed))) := by
  induction pre generalizing cl with
  | nil =>
    simp [rangeClientsBlocking, hc]
  | cons a rest ih =>
    have hrest : ∀ x ∈ rest, outcome x ≠ WriteOutcome.blocked :=
      fun x hx => hpre x (List.mem_cons_of_mem _ hx)
    have ha := hpre a (List.mem_cons_self _ _)
    rw [List.cons_append]
    unfold rangeClientsBlocking
    cases ho : outcome a with
    | ok =>
      simp only [ih _ hrest]
      refine ⟨by simp [List.filter_cons, ho], ?_⟩
      apply List.filter_congr
      intro x _
      by_cases hx : x = a
      · subst hx; simp [ho]
      · simp [hx]
    | failed =>
      simp only [ih _ hrest, mapDelete, List.filter_filter]
      refine ⟨by simp [List.filter_cons, ho], ?_⟩
      apply List.filter_congr
      intro x _
      by_cases hx : x = a
      · subst hx; simp [ho]
      · simp [hx]
    | blocked => exact absurd ho ha

/-! ### The claims -/

/-- C1, evaluated where the code departs from it: with the interval
`N = 2 ^ 32 + 2 ≥ 1`, the initial state and overall frame id 2, the sampling code
accepts the packet and records frame 2, although `2 mod N ≠ 0`; the divisor it
uses is `uint32(N) = 2`. -/
theorem samplingFilter_interval_wraps :
    (1 : Int) ≤ 4294967298 ∧
      samplingFilter 4294967298 ⟨0, true⟩ 2 = (Verdict.accept, ⟨2, false⟩) ∧
      ¬ ((2 : Int) % 4294967298 = 0) := by
  decide

/-- C2, where it fails: the 89-byte telemetry datagram of `nanTelemetryBuffer`
meets the conditions of the claim, and the record handed to the Hub has the
throttle pattern `0x7fc00001`, whereas the little-endian value of the throttle
bytes is `0x7f800001`: the record is not the little-endian decode of the 60
bytes. -/
theorem selected_record_not_wire_pattern :
    nanTelemetryBuffer.length = BUF_SIZE ∧ 89 ≤ BUF_SIZE ∧
      (headerOf nanTelemetryBuffer).PacketId = PID_CAR_TELEMETRY ∧
      (samplingFilter 2 SamplingState.init (headerOf nanTelemetryBuffer).OverallFrameId).1 =
        Verdict.accept ∧
      HDR_SIZE + ((headerOf nanTelemetryBuffer).PlayerCarIndex + 1) * TEL_SIZE ≤ 89 ∧
      (telemetryAt (nanTelemetryBuffer.take 89) 29).Throttle = 2139095041 ∧
      (sentRecords (processDatagram 2 SamplingState.init nanTelemetryBuffer 89).trace).map
        (fun t => t.Throttle) = [2143289345] ∧
      sentRecords (processDatagram 2 SamplingState.init nanTelemetryBuffer 89).trace ≠
        [telemetryAt (nanTelemetryBuffer.take 89) 29] := by
  decide!

/-- C2, amended: record selection. For a datagram of length `n` in the
4096-byte buffer whose header has packet id 6, that the sampling code accepts,
and with `n ≥ 29 + (playerCarIndex + 1) * 60`, exactly one record is handed to
the Hub: the little-endian decode of the 60 bytes of the datagram (the first
`n` bytes of the buffer) from offset `29 + playerCarIndex * 60`, each `float32`
field stored as Go stores it (a signalling NaN pattern with its quiet bit set);
it is that decode itself when no `float32` field of it is a signalling NaN. The
segment is 60 bytes long and no panic is raised. -/
theorem selected_record_sent (N : Int) (st : SamplingState) (buf : List Byte) (n : Nat)
    (hbuf : buf.length = BUF_SIZE) (hn : n ≤ BUF_SIZE)
    (hpid : (headerOf buf).PacketId = PID_CAR_TELEMETRY)
    (hacc : (samplingFilter N st (headerOf buf).OverallFrameId).1 = Verdict.accept)
    (hlen : HDR_SIZE + ((headerOf buf).PlayerCarIndex + 1) * TEL_SIZE ≤ n) :
    sentRecords (processDatagram N st buf n).trace =
        [(telemetryAt (buf.take n)
          (HDR_SIZE + (headerOf buf).PlayerCarIndex * TEL_SIZE)).stored] ∧
      ((telemetryAt (buf.take n)
          (HDR_SIZE + (headerOf buf).PlayerCarIndex * TEL_SIZE)).NoSignallingNaN →
        sentRecords (processDatagram N st buf n).trace =
          [telemetryAt (buf.take n) (HDR_SIZE + (headerOf buf).PlayerCarIndex * TEL_SIZE)]) ∧
      binaryReadTelemetry (((buf.take n).drop
          (HDR_SIZE + (headerOf buf).PlayerCarIndex * TEL_SIZE)).take TEL_SIZE) =
        some (telemetryAt (buf.take n)
          (HDR_SIZE + (headerOf buf).PlayerCarIndex * TEL_SIZE)).stored ∧
      (((buf.take n).drop
          (HDR_SIZE + (headerOf buf).PlayerCarIndex * TEL_SIZE)).take TEL_SIZE).length =
        TEL_SIZE ∧
      (processDatagram N st buf n).panic = none := by
  have hoff : payloadOffset (headerOf buf) + TEL_SIZE ≤ n := by
    unfold payloadOffset
    rw [Nat.add_mul, Nat.one_mul, ← Nat.add_assoc] at hlen
    exact hlen
  have hT : TEL_SIZE = 60 := rfl
  have hB : BUF_SIZE = 4096 := rfl
  have hH : HDR_SIZE = 29 := rfl
  have hn29 : HDR_SIZE ≤ n := by unfold payloadOffset at hoff; omega
  have hstep : processDatagram N st buf n =
      ⟨⟨(headerOf buf).OverallFrameId, false⟩,
        [Event.headerDecoded (headerOf buf),
          Event.telemetryDecoded (payloadOffset (headerOf buf)),
          Event.sent (telemetryAt (buf.take n) (payloadOffset (headerOf buf))).stored],
        none⟩ := by
    rw [processDatagram_telemetry N st buf n hn29 (by omega) hpid,
      samplingFilter_accept_state N st _ hacc]
    simp only [if_neg (Nat.not_lt.mpr hoff)]
    rw [slice_eq_some buf _ _ (Nat.le_add_right _ _) (by omega), Nat.add_sub_cancel_left]
    simp only [hT] at hoff ⊢
    rw [binaryReadTelemetry_segment buf _ (by omega), telemetryAt_take buf n _ hoff]
    rfl
  have hsent : sentRecords (processDatagram N st buf n).trace =
      [(telemetryAt (buf.take n) (payloadOffset (headerOf buf))).stored] := by
    rw [hstep]
    rfl
  rw [← payloadOffset]
  refine ⟨hsent, ?_, ?_, ?_, ?_⟩
  · intro hnan
    rw [hsent, telemetryStored_eq _ hnan]
  · simp only [hT] at hoff ⊢
    exact binaryReadTelemetry_segment (buf.take n) _ (by rw [List.length_take]; omega)
  · rw [List.length_take, List.length_drop, List.length_take]
    omega
  · rw [hstep]

theorem selected_record_sent_witness :
    sampleBuffer.length = BUF_SIZE ∧ 149 ≤ BUF_SIZE ∧
      (headerOf sampleBuffer).PacketId = PID_CAR_TELEMETRY ∧
      (samplingFilter 2 ⟨0, true⟩ (headerOf sampleBuffer).OverallFrameId).1 = Verdict.accept ∧
      HDR_SIZE + ((headerOf sampleBuffer).PlayerCarIndex + 1) * TEL_SIZE ≤ 149 ∧
      (telemetryAt (sampleBuffer.take 149)
          (HDR_SIZE + (headerOf sampleBuffer).PlayerCarIndex * TEL_SIZE)).NoSignallingNaN ∧
      sentRecords (processDatagram 2 ⟨0, true⟩ sampleBuffer 149).trace =
        [telemetryAt (sampleBuffer.take 149)
          (HDR_SIZE + (headerOf sampleBuffer).PlayerCarIndex * TEL_SIZE)] ∧
      telemetryAt (sampleBuffer.take 149)
          (HDR_SIZE + (headerOf sampleBuffer).PlayerCarIndex * TEL_SIZE) = sampleRecord :=
  ⟨by decide!, by decide, by decide!, by decide!, by decide!, by decide!,
    (selected_record_sent 2 ⟨0, true⟩ sampleBuffer 149 (by decide!) (by decide) (by decide!)
      (by decide!) (by decide!)).2.1 (by decide!), by decide!⟩

/-- C3: a truncated payload is skipped. Whenever the received length `n` is
smaller than `29 + (playerCarIndex + 1) * 60`, `playerCarIndex` being the value
decoded from the header, the loop body performs no telemetry decode and hands no
record to the Hub. -/
theorem truncated_payload_skipped (N : Int) (st : SamplingState) (buf : List Byte) (n : Nat)
    (h : n < HDR_SIZE + ((headerOf buf).PlayerCarIndex + 1) * TEL_SIZE) :
    telemetryDecodes (processDatagram N st buf n).trace = [] ∧
      sentRecords (processDatagram N st buf n).trace = [] := by
  by_cases hn : n < HDR_SIZE
  · rw [processDatagram_short N st buf n hn]
    exact ⟨rfl, rfl⟩
  · by_cases hb : buf.length < HDR_SIZE
    · rw [processDatagram_small_buffer N st buf n (by omega) hb]
      exact ⟨rfl, rfl⟩
    · by_cases hpid : (headerOf buf).PacketId = PID_CAR_TELEMETRY
      · rw [processDatagram_telemetry N st buf n (by omega) (by omega) hpid]
        have hoff : n < payloadOffset (headerOf buf) + TEL_SIZE := by
          unfold payloadOffset
          rw [Nat.add_mul, Nat.one_mul, ← Nat.add_assoc] at h
          exact h
        rcases samplingFilter N st (headerOf buf).OverallFrameId with ⟨v, st1⟩
        cases v
        · simp only [if_pos hoff]
          exact ⟨rfl, rfl⟩
        · exact ⟨rfl, rfl⟩
        · exact ⟨rfl, rfl⟩
        · exact ⟨rfl, rfl⟩
      · rw [processDatagram_other_kind N st buf n (by omega) (by omega) hpid]
        exact ⟨rfl, rfl⟩

theorem truncated_payload_skipped_witness :
    148 < HDR_SIZE + ((headerOf sampleBuffer).PlayerCarIndex + 1) * TEL_SIZE ∧
      telemetryDecodes (processDatagram 2 ⟨0, true⟩ sampleBuffer 148).trace = [] ∧
      sentRecords (processDatagram 2 ⟨0, true⟩ sampleBuffer 148).trace = [] :=
  ⟨by decide!, truncated_payload_skipped 2 ⟨0, true⟩ sampleBuffer 148 (by decide!)⟩

/-- C4, evaluated where the code departs from it: with the interval
`N = 2 ^ 32 ≥ 1`, the initial state and a 29-byte telemetry datagram in the
4096-byte buffer, `uint32(N)` is 0 and the loop body panics with an integer
division by zero. -/
theorem processDatagram_divides_by_zero :
    (1 : Int) ≤ 4294967296 ∧ zeroFrameBuffer.length = BUF_SIZE ∧ 29 ≤ BUF_SIZE ∧
      toUint32 4294967296 = 0 ∧
      (processDatagram 4294967296 SamplingState.init zeroFrameBuffer 29).panic =
        some Panic.divideByZero := by
  decide!

/-- C5, where it fails: with bytes 15 to 18 holding `01 00 80 7f`, whose
little-endian pattern is `0x7f800001`, the header decoder yields a SessionTime
with the pattern `0x7fc00001`. -/
theorem session_time_not_wire_pattern :
    HDR_SIZE ≤ nanHeaderBuffer.length ∧
      byteAt nanHeaderBuffer 15 + 256 * (byteAt nanHeaderBuffer 16 +
        256 * (byteAt nanHeaderBuffer 17 + 256 * byteAt nanHeaderBuffer 18)) = 2139095041 ∧
      (binaryReadHeader (nanHeaderBuffer.take HDR_SIZE)).map (fun h => h.SessionTime) =
        some 2143289345 ∧
      binaryReadHeader (nanHeaderBuffer.take HDR_SIZE) ≠ some (headerAt nanHeaderBuffer) := by
  decide!

/-- C5, amended: header wire layout. For every buffer of at least 29 bytes the
slice `buf[:29]` is taken and the header decoder yields PacketFormat from bytes
0-1, GameYear, GameMajorVersion, GameMinorVersion, PacketVersion and PacketId
from bytes 2 to 6, SessionUID from bytes 7-14, FrameIdentifier from bytes 19-22,
OverallFrameId from bytes 23-26 (all little-endian), PlayerCarIndex from byte 27
and SecondaryPlayer as byte 28 read as an `int8`. SessionTime is the `float32`
stored from the little-endian pattern of bytes 15-18: that pattern itself,
unless it is a signalling NaN, which is stored with its quiet bit (bit 22) set.
The field widths sum to 29 and the decoder consumes exactly the first 29
bytes. -/
theorem header_wire_layout (buf : List Byte) (h : HDR_SIZE ≤ buf.length) :
    slice buf 0 HDR_SIZE = some (buf.take HDR_SIZE) ∧
      binaryReadHeader (buf.take HDR_SIZE) = some
        ⟨byteAt buf 0 + 256 * byteAt buf 1, byteAt buf 2, byteAt buf 3, byteAt buf 4,
          byteAt buf 5, byteAt buf 6,
          byteAt buf 7 + 256 * (byteAt buf 8 + 256 * (byteAt buf 9 + 256 * (byteAt buf 10 +
            256 * (byteAt buf 11 + 256 * (byteAt buf 12 + 256 * (byteAt buf 13 +
            256 * byteAt buf 14)))))),
          float32Store (byteAt buf 15 + 256 * (byteAt buf 16 + 256 * (byteAt buf 17 +
            256 * byteAt buf 18))),
          byteAt buf 19 + 256 * (byteAt buf 20 + 256 * (byteAt buf 21 + 256 * byteAt buf 22)),
          byteAt buf 23 + 256 * (byteAt buf 24 + 256 * (byteAt buf 25 + 256 * byteAt buf 26)),
          byteAt buf 27, toInt8 (byteAt buf 28)⟩ ∧
      (¬ isSignallingNaN (byteAt buf 15 + 256 * (byteAt buf 16 + 256 * (byteAt buf 17 +
          256 * byteAt buf 18))) →
        binaryReadHeader (buf.take HDR_SIZE) = some (headerAt buf)) ∧
      (isSignallingNaN (byteAt buf 15 + 256 * (byteAt buf 16 + 256 * (byteAt buf 17 +
          256 * byteAt buf 18))) →
        float32Store (byteAt buf 15 + 256 * (byteAt buf 16 + 256 * (byteAt buf 17 +
          256 * byteAt buf 18))) =
          byteAt buf 15 + 256 * (byteAt buf 16 + 256 * (byteAt buf 17 +
            256 * byteAt buf 18)) + 2 ^ 22) ∧
      PacketHeader.fieldWidths.sum = HDR_SIZE ∧
      (decodePacketHeader buf).map Prod.snd = some (buf.drop HDR_SIZE) := by
  have hH : HDR_SIZE = 29 := rfl
  have hread := binaryReadHeader_take buf (by omega)
  refine ⟨slice_header buf h, ?_, ?_, ?_, by decide, ?_⟩
  · rw [hH]
    exact hread
  · intro hn
    rw [hH, hread, float32Store_of_not_signalling _ hn]
    rfl
  · intro hs
    unfold float32Store
    rw [if_pos hs]
  · rw [decodePacketHeader_layout buf (by omega)]
    rfl

theorem header_wire_layout_witness :
    HDR_SIZE ≤ sampleBuffer.length ∧
      binaryReadHeader (sampleBuffer.take HDR_SIZE) = some sampleHeaderValue ∧
      headerAt sampleBuffer = sampleHeaderValue ∧
      toInt8 (byteAt sampleBuffer 28) = -1 :=
  ⟨by decide!,
    ((header_wire_layout sampleBuffer (by decide!)).2.2.1 (by decide!)).trans (by decide!),
    by decide!, by decide!⟩

/-- C6, where it fails: the header value `nanHeaderValue`, whose session time
holds the signalling NaN pattern `0x7f800001`, is written to 29 bytes, and the
program's decoder returns a header with the session time pattern `0x7fc00001`,
not the original value. -/
theorem roundtrip_loses_signalling_nan :
    nanHeaderValue.InRange ∧ (encodePacketHeader nanHeaderValue).length = HDR_SIZE ∧
      (binaryReadHeader (encodePacketHeader nanHeaderValue)).map (fun h => h.SessionTime) =
        some 2143289345 ∧
      binaryReadHeader (encodePacketHeader nanHeaderValue) ≠ some nanHeaderValue := by
  decide

/-- C6, amended: decode round trip. For every in-range `PacketHeader` and
`CarTelemetryData` value (float32 fields as 32-bit patterns), writing the fields
in declaration order, little-endian and unpadded, gives exactly 29 and exactly
60 bytes, and the program's decoder returns the value with every field as it
was, the signed `int8` fields and the four-element arrays included, but for a
`float32` field holding a signalling NaN, which comes back with its quiet bit
set; a value with no signalling NaN in a `float32` field comes back as it
was. -/
theorem decode_encode_roundtrip (h : PacketHeader) (t : CarTelemetryData)
    (hh : h.InRange) (ht : t.InRange) :
    (encodePacketHeader h).length = HDR_SIZE ∧ (encodeCarTelemetryData t).length = TEL_SIZE ∧
      binaryReadHeader (encodePacketHeader h) =
        some { h with SessionTime := float32Store h.SessionTime } ∧
      binaryReadTelemetry (encodeCarTelemetryData t) =
        some { t with
          Throttle := float32Store t.Throttle
          Steer := float32Store t.Steer
          Brake := float32Store t.Brake
          TyresPressure := ⟨float32Store t.TyresPressure.e0, float32Store t.TyresPressure.e1,
            float32Store t.TyresPressure.e2, float32Store t.TyresPressure.e3⟩ } ∧
      (h.NoSignallingNaN → binaryReadHeader (encodePacketHeader h) = some h) ∧
      (t.NoSignallingNaN → binaryReadTelemetry (encodeCarTelemetryData t) = some t) := by
  refine ⟨encodePacketHeader_length h, encodeCarTelemetryData_length t,
    binaryReadHeader_encode h hh, binaryReadTelemetry_encode t ht, ?_, ?_⟩
  · intro hn
    rw [binaryReadHeader_encode h hh, headerStored_eq h hn]
  · intro hn
    rw [binaryReadTelemetry_encode t ht, telemetryStored_eq t hn]

theorem decode_encode_roundtrip_witness :
    sampleHeaderValue.InRange ∧ sampleTelemetryValue.InRange ∧
      sampleHeaderValue.NoSignallingNaN ∧ sampleTelemetryValue.NoSignallingNaN ∧
      binaryReadHeader (encodePacketHeader sampleHeaderValue) = some sampleHeaderValue ∧
      binaryReadTelemetry (encodeCarTelemetryData sampleTelemetryValue) =
        some sampleTelemetryValue :=
  ⟨by decide, by decide, by decide, by decide,
    (decode_encode_roundtrip sampleHeaderValue sampleTelemetryValue (by decide)
      (by decide)).2.2.2.2.1 (by decide),
    (decode_encode_roundtrip sampleHeaderValue sampleTelemetryValue (by decide)
      (by decide)).2.2.2.2.2 (by decide)⟩

/-- C7: fan-out and eviction in one broadcast cycle. For every subscriber set
`S` (in any iteration order), record `r` and success/failure assignment `ok`,
the cycle writes `r` exactly once to each member of `S` and the live set
afterwards is the members of `S` whose write succeeded. With three subscribers
`a`, `b`, `c` of which `c` fails, all three are written the same record, the set
after the first broadcast is `a, b`, and the next broadcast writes to exactly
those two. -/
theorem hub_fanout_and_eviction (S order : List Conn) (r : CarTelemetryData)
    (ok : Conn → Bool) (a b c : Conn) (order1 order2 : List Conn) (ok1 ok2 : Conn → Bool)
    (r1 r2 : CarTelemetryData)
    (hS : S.Nodup) (hperm : order.Perm S)
    (hset : [a, b, c].Nodup)
    (ha : ok1 a = true) (hb : ok1 b = true) (hc : ok1 c = false)
    (hp1 : order1.Perm [a, b, c])
    (hp2 : order2.Perm (Hub.runCycle ⟨[a, b, c]⟩ ok1 r1 order1).clients) :
    ((Hub.runCycle ⟨S⟩ ok r order).writes = order.map (fun x => (x, r)) ∧
      ((Hub.runCycle ⟨S⟩ ok r order).writes.map Prod.fst).Perm S ∧
      ((Hub.runCycle ⟨S⟩ ok r order).writes.map Prod.fst).Nodup ∧
      (Hub.runCycle ⟨S⟩ ok r order).clients = S.filter (fun x => ok x)) ∧
    (((Hub.runCycle ⟨[a, b, c]⟩ ok1 r1 order1).writes.map Prod.fst).Perm [a, b, c] ∧
      (∀ w ∈ (Hub.runCycle ⟨[a, b, c]⟩ ok1 r1 order1).writes, w.2 = r1) ∧
      (Hub.runCycle ⟨[a, b, c]⟩ ok1 r1 order1).clients = [a, b] ∧
      ((Hub.runCycle ⟨(Hub.runCycle ⟨[a, b, c]⟩ ok1 r1 order1).clients⟩ ok2 r2
        order2).writes.map Prod.fst).Perm [a, b] ∧
      [a, b].Nodup ∧
      ∀ w ∈ (Hub.runCycle ⟨(Hub.runCycle ⟨[a, b, c]⟩ ok1 r1 order1).clients⟩ ok2 r2
        order2).writes, w.2 = r2) := by
  unfold Hub.runCycle at hp2 ⊢
  simp only at hp2 ⊢
  have h1 : (rangeClients ok1 r1 order1 [a, b, c]).clients = [a, b] := by
    rw [rangeClients_clients_of_perm ok1 r1 order1 _ hp1]
    simp [ha, hb, hc]
  rw [h1] at hp2
  rw [h1]
  have hpair : ∀ (o : List Conn) (x : CarTelemetryData),
      ∀ w ∈ (rangeClients ok2 x o [a, b]).writes, w.2 = x := by
    intro o x w hwm
    rw [rangeClients_writes] at hwm
    obtain ⟨y, _, rfl⟩ := List.mem_map.mp hwm
    rfl
  have hpair1 : ∀ w ∈ (rangeClients ok1 r1 order1 [a, b, c]).writes, w.2 = r1 := by
    intro w hwm
    rw [rangeClients_writes] at hwm
    obtain ⟨y, _, rfl⟩ := List.mem_map.mp hwm
    rfl
  have hab : [a, b].Nodup := by
    have := hset
    simp only [List.nodup_cons, List.mem_cons, List.mem_singleton, not_or] at this ⊢
    simp [this.1.1]
  refine ⟨⟨rangeClients_writes _ _ _ _, ?_, ?_, rangeClients_clients_of_perm _ _ _ _ hperm⟩,
    ?_, hpair1, rfl, ?_, hab, hpair order2 r2⟩
  · rw [rangeClients_writes, map_fst_map_pair]; exact hperm
  · rw [rangeClients_writes, map_fst_map_pair]; exact hperm.nodup_iff.mpr hS
  · rw [rangeClients_writes, map_fst_map_pair]; exact hp1
  · rw [rangeClients_writes, map_fst_map_pair]; exact hp2

theorem hub_fanout_and_eviction_witness :
    [1, 2, 3].Nodup ∧ [3, 1, 2].Perm [1, 2, 3] ∧
      (Hub.runCycle ⟨[1, 2, 3]⟩ (fun x => x != 3) sampleRecord [3, 1, 2]).clients = [1, 2] ∧
      ((Hub.runCycle ⟨(Hub.runCycle ⟨[1, 2, 3]⟩ (fun x => x != 3) sampleRecord
        [3, 1, 2]).clients⟩ (fun _ => true) CarTelemetryData.zero
        [2, 1]).writes.map Prod.fst).Perm [1, 2] :=
  ⟨by decide, by decide,
    (hub_fanout_and_eviction [1, 2, 3] [3, 1, 2] sampleRecord (fun x => x != 2) 1 2 3
      [3, 1, 2] [2, 1] (fun x => x != 3) (fun _ => true) sampleRecord CarTelemetryData.zero
      (by decide) (by decide) (by decide) (by decide) (by decide) (by decide) (by decide)
      (by decide)).2.2.2.1,
    (hub_fanout_and_eviction [1, 2, 3] [3, 1, 2] sampleRecord (fun x => x != 2) 1 2 3
      [3, 1, 2] [2, 1] (fun x => x != 3) (fun _ => true) sampleRecord CarTelemetryData.zero
      (by decide) (by decide) (by decide) (by decide) (by decide) (by decide) (by decide)
      (by decide)).2.2.2.2.1⟩

/-- C8: a datagram shorter than the header is rejected before parsing. For
every received length `n < 29`, whatever the buffer, the interval and the
sampling state, the loop body decodes no header and no telemetry, hands nothing
to the Hub, leaves the sampling state unchanged and raises no panic. -/
theorem short_datagram_rejected (N : Int) (st : SamplingState) (buf : List Byte) (n : Nat)
    (h : n < HDR_SIZE) :
    headerDecodes (processDatagram N st buf n).trace = [] ∧
      telemetryDecodes (processDatagram N st buf n).trace = [] ∧
      sentRecords (processDatagram N st buf n).trace = [] ∧
      (processDatagram N st buf n).state = st ∧
      (processDatagram N st buf n).panic = none := by
  rw [processDatagram_short N st buf n h]
  exact ⟨rfl, rfl, rfl, rfl, rfl⟩

theorem short_datagram_rejected_witness :
    28 < HDR_SIZE ∧
      headerDecodes (processDatagram 2 ⟨4, false⟩ sampleBuffer 28).trace = [] ∧
      telemetryDecodes (processDatagram 2 ⟨4, false⟩ sampleBuffer 28).trace = [] ∧
      sentRecords (processDatagram 2 ⟨4, false⟩ sampleBuffer 28).trace = [] ∧
      (processDatagram 2 ⟨4, false⟩ sampleBuffer 28).state = ⟨4, false⟩ ∧
      (processDatagram 2 ⟨4, false⟩ sampleBuffer 28).panic = none :=
  ⟨by decide, short_datagram_rejected 2 ⟨4, false⟩ sampleBuffer 28 (by decide)⟩

/-- C9: packet-kind filter. On the 4096-byte buffer, a datagram of length at
least 29 whose packet-id byte (offset 6) differs from 6 hands nothing to the Hub
and leaves the sampling state unchanged; conversely a record is handed to the
Hub only when the datagram has at least 29 bytes and its packet-id byte is 6. -/
theorem packet_kind_filter (N : Int) (st : SamplingState) (buf : List Byte) (n : Nat)
    (hbuf : buf.length = BUF_SIZE) :
    (HDR_SIZE ≤ n → byteAt buf 6 ≠ PID_CAR_TELEMETRY →
        sentRecords (processDatagram N st buf n).trace = [] ∧
        (processDatagram N st buf n).state = st) ∧
      (sentRecords (processDatagram N st buf n).trace ≠ [] →
        HDR_SIZE ≤ n ∧ byteAt buf 6 = PID_CAR_TELEMETRY) := by
  have hb : HDR_SIZE ≤ buf.length := by rw [hbuf]; decide
  have key : HDR_SIZE ≤ n → byteAt buf 6 ≠ PID_CAR_TELEMETRY →
      sentRecords (processDatagram N st buf n).trace = [] ∧
        (processDatagram N st buf n).state = st := by
    intro hn hpid
    rw [processDatagram_other_kind N st buf n hn hb (by rwa [headerOf_packetId buf hb])]
    exact ⟨rfl, rfl⟩
  refine ⟨key, ?_⟩
  intro hsent
  by_cases hn : HDR_SIZE ≤ n
  · refine ⟨hn, ?_⟩
    by_contra hpid
    exact hsent (key hn hpid).1
  · rw [processDatagram_short N st buf n (by omega)] at hsent
    exact absurd rfl hsent

theorem packet_kind_filter_witness :
    otherKindBuffer.length = BUF_SIZE ∧ HDR_SIZE ≤ 89 ∧
      byteAt otherKindBuffer 6 ≠ PID_CAR_TELEMETRY ∧
      sentRecords (processDatagram 2 ⟨0, true⟩ otherKindBuffer 89).trace = [] ∧
      (processDatagram 2 ⟨0, true⟩ otherKindBuffer 89).state = ⟨0, true⟩ :=
  ⟨by decide!, by decide, by decide!,
    (packet_kind_filter 2 ⟨0, true⟩ otherKindBuffer 89 (by decide!)).1 (by decide)
      (by decide!)⟩

/-- C10: sampling run from the initial state. With `N = 2` and the state
`(lastFrame = 0, firstPacket = true)`, the overall frame ids `[0, 1, 2, 2, 3, 4]`
are accepted at the 1st, 3rd and 6th packet only; ids 1 and 3 fail the modulo
check and the second 2 fails the dedup check. -/
theorem sampling_run_from_initial_state :
    runFilter 2 SamplingState.init [0, 1, 2, 2, 3, 4] =
      [Verdict.accept, Verdict.rejectModulo, Verdict.accept, Verdict.rejectDuplicate,
        Verdict.rejectModulo, Verdict.accept] := by
  decide

/-- C11: a repeated frame id is rejected regardless of N. For every interval,
sampling state and frame id `f`, when the packet with id `f` has been processed
(accepted or rejected; a division by zero ends the process, see C4), the next
packet with the same id is rejected, by the dedup check or by the modulo check,
and leaves the state as it is; after an acceptance the rejection is the dedup
one. -/
theorem repeated_frame_rejected (N : Int) (st : SamplingState) (f : Nat)
    (h : (samplingFilter N st f).1 ≠ Verdict.divideByZero) :
    ((samplingFilter N (samplingFilter N st f).2 f).1 = Verdict.rejectDuplicate ∨
        (samplingFilter N (samplingFilter N st f).2 f).1 = Verdict.rejectModulo) ∧
      ((samplingFilter N st f).1 = Verdict.accept →
        (samplingFilter N (samplingFilter N st f).2 f).1 = Verdict.rejectDuplicate) ∧
      (samplingFilter N (samplingFilter N st f).2 f).2 = (samplingFilter N st f).2 ∧
      runFilter N st [f, f] =
        [(samplingFilter N st f).1, (samplingFilter N (samplingFilter N st f).2 f).1] := by
  have hrun : runFilter N st [f, f] =
      [(samplingFilter N st f).1, (samplingFilter N (samplingFilter N st f).2 f).1] := by
    rw [runFilter_cons N st f [f] h, runFilter_singleton]
  refine ⟨?_, ?_, ?_, hrun⟩ <;>
    rcases samplingFilter_cases N st f with h1 | h1 | h1 | h1 <;>
    simp [h1, samplingFilter_duplicate] at h ⊢

theorem repeated_frame_rejected_witness :
    (samplingFilter 2 SamplingState.init 4).1 ≠ Verdict.divideByZero ∧
      (samplingFilter 2 SamplingState.init 4).1 = Verdict.accept ∧
      (samplingFilter 2 (samplingFilter 2 SamplingState.init 4).2 4).1 =
        Verdict.rejectDuplicate :=
  ⟨by decide, by decide,
    (repeated_frame_rejected 2 SamplingState.init 4 (by decide)).2.1 (by decide)⟩

/-- C12: `N = 1` disables down-sampling. From the initial state
`(lastFrame = 0, firstPacket = true)` every packet of a strictly increasing
sequence of overall frame ids is accepted. -/
theorem interval_one_accepts_increasing (fs : List Nat) (h : List.Sorted (· < ·) fs) :
    runFilter 1 SamplingState.init fs = List.replicate fs.length Verdict.accept := by
  cases fs with
  | nil => rfl
  | cons f rest =>
    have hc : List.Chain (· < ·) f rest := List.Pairwise.chain h
    rw [SamplingState.init,
      runFilter_cons 1 _ f rest (by rw [samplingFilter_one_first 0 f]; exact fun hv => Verdict.noConfusion hv),
      samplingFilter_one_first 0 f]
    simp only [List.length_cons, List.replicate_succ]
    rw [runFilter_one_chain f rest hc]

theorem interval_one_accepts_increasing_witness :
    List.Sorted (· < ·) [0, 1, 2, 5, 9] ∧
      runFilter 1 SamplingState.init [0, 1, 2, 5, 9] = List.replicate 5 Verdict.accept :=
  ⟨by decide, interval_one_accepts_increasing [0, 1, 2, 5, 9] (by decide)⟩

/-- C13, where it fails: with the variable set to `0`, to `-3` or to `abc`,
`getEnvInt` with fallback 2 delivers 0, -3 and 0, none of which is at least
1. -/
theorem sampling_interval_not_validated :
    SAMPLE_EVERY_N_FRAMES (some "0") = 0 ∧ ¬ (1 ≤ SAMPLE_EVERY_N_FRAMES (some "0")) ∧
      SAMPLE_EVERY_N_FRAMES (some "-3") = -3 ∧ ¬ (1 ≤ SAMPLE_EVERY_N_FRAMES (some "-3")) ∧
      SAMPLE_EVERY_N_FRAMES (some "abc") = 0 ∧ ¬ (1 ≤ SAMPLE_EVERY_N_FRAMES (some "abc")) := by
  decide

/-- C13, amended: the interval `getEnvInt` (fallback 2) delivers is 2 when the
variable is unset, and otherwise what `strconv.Atoi` returns, its error dropped.
Every string is an optional leading sign `+` or `-`, the longest run of decimal
digits after it, and a rest that is empty or begins with a character that is no
digit. The interval is 0 when there is no digit; when the digits denote at
least `2 ^ 64` it is `2 ^ 63 - 1`, or `-(2 ^ 63)` after `-`, whatever the rest;
otherwise it is 0 when the rest is not empty; otherwise it is the signed number
the digits denote, clamped to the range of `int`. So `N ≥ 1` holds exactly when
there is no `-` and either the digits denote at least `2 ^ 64` or nothing
follows them and they denote at least 1. No check `N ≥ 1` is made. -/
theorem sampling_interval_from_environment (sign : List Char) (pre : List Nat)
    (rest : List Char)
    (hsign : sign = [] ∨ sign = ['+'] ∨ sign = ['-'])
    (hpre : ∀ d ∈ pre, d < 10)
    (hrest : ∀ c ∈ rest.head?, c.toNat < 48 ∨ 57 < c.toNat)
    (hcs : sign = [] → pre = [] → ∀ c ∈ rest.head?, c ≠ '+' ∧ c ≠ '-') :
    SAMPLE_EVERY_N_FRAMES none = 2 ∧
      SAMPLE_EVERY_N_FRAMES (some ⟨sign ++ (pre.map digitChar ++ rest)⟩) =
        (if pre = [] then 0
          else if 2 ^ 64 ≤ decimalValue pre then (if sign = ['-'] then -(2 ^ 63) else 2 ^ 63 - 1)
          else if rest ≠ [] then 0
          else if sign = ['-'] then
            (if 2 ^ 63 < decimalValue pre then -(2 ^ 63) else -(decimalValue pre : Int))
          else (if 2 ^ 63 ≤ decimalValue pre then 2 ^ 63 - 1 else (decimalValue pre : Int))) ∧
      (1 ≤ SAMPLE_EVERY_N_FRAMES (some ⟨sign ++ (pre.map digitChar ++ rest)⟩) ↔
        sign ≠ ['-'] ∧ (2 ^ 64 ≤ decimalValue pre ∨ (rest = [] ∧ 1 ≤ decimalValue pre))) ∧
      (∀ s : String, ∃ (sg : List Char) (ds : List Nat) (tl : List Char),
        (sg = [] ∨ sg = ['+'] ∨ sg = ['-']) ∧ (∀ d ∈ ds, d < 10) ∧
        (∀ c ∈ tl.head?, c.toNat < 48 ∨ 57 < c.toNat) ∧
        (sg = [] → ds = [] → ∀ c ∈ tl.head?, c ≠ '+' ∧ c ≠ '-') ∧
        s = ⟨sg ++ (ds.map digitChar ++ tl)⟩) := by
  have h64 : (2 : Int) ^ 64 = 18446744073709551616 := by norm_num
  have h63 : (2 : Int) ^ 63 = 9223372036854775808 := by norm_num
  have n64 : (2 : Nat) ^ 64 = 18446744073709551616 := by norm_num
  have n63 : (2 : Nat) ^ 63 = 9223372036854775808 := by norm_num
  have hhead : sign = [] → ∀ c ∈ (pre.map digitChar ++ rest).head?, c ≠ '+' ∧ c ≠ '-' := by
    intro hs c hc
    cases pre with
    | nil => exact hcs hs rfl c (by simpa using hc)
    | cons d pre1 =>
      simp only [List.map_cons, List.cons_append, List.head?_cons, Option.mem_def,
        Option.some.injEq] at hc
      subst hc
      have := digitChar_ne_sign d (hpre d (List.mem_cons_self _ _))
      tauto
  have hval : SAMPLE_EVERY_N_FRAMES (some ⟨sign ++ (pre.map digitChar ++ rest)⟩) =
      (if pre = [] then 0
        else if 2 ^ 64 ≤ decimalValue pre then (if sign = ['-'] then -(2 ^ 63) else 2 ^ 63 - 1)
        else if rest ≠ [] then 0
        else if sign = ['-'] then
          (if 2 ^ 63 < decimalValue pre then -(2 ^ 63) else -(decimalValue pre : Int))
        else (if 2 ^ 63 ≤ decimalValue pre then 2 ^ 63 - 1 else (decimalValue pre : Int))) := by
    show (ParseInt (sign ++ (pre.map digitChar ++ rest))).1 = _
    by_cases hp : pre = []
    · subst hp
      rw [if_pos rfl]
      cases rest with
      | nil =>
        rw [ParseInt_sign_body sign _ 0 (some NumError.errSyntax) hsign hhead ParseUint_nil,
          if_pos rfl]
      | cons c r =>
        have hc := hrest c (by simp)
        rw [ParseInt_sign_body sign _ 0 (some NumError.errSyntax) hsign hhead
          (ParseUint_nondigit [] c r (by simp) (by rw [decimalValue_nil]; norm_num) hc),
          if_pos rfl]
    · rw [if_neg hp]
      by_cases hv : 2 ^ 64 ≤ decimalValue pre
      · rw [if_pos hv, ParseInt_sign_body sign _ (2 ^ 64 - 1) (some NumError.errRange) hsign
          hhead (ParseUint_overflow pre rest hpre hv)]
        by_cases hm : sign = ['-'] <;> simp [hm]
      · rw [if_neg hv]
        cases rest with
        | nil =>
          rw [List.append_nil] at hhead ⊢
          rw [ParseInt_sign_body sign _ (decimalValue pre) none hsign hhead
            (ParseUint_digits pre hp hpre (by omega))]
          by_cases hm : sign = ['-']
          · by_cases h1 : 2 ^ 63 < decimalValue pre <;> simp [hm, h1]
          · by_cases h1 : 2 ^ 63 ≤ decimalValue pre <;> simp [hm, h1]
        | cons c r =>
          have hc := hrest c (by simp)
          rw [ParseInt_sign_body sign _ 0 (some NumError.errSyntax) hsign hhead
            (ParseUint_nondigit pre c r hpre (by omega) hc), if_pos rfl, if_pos (by simp)]
  refine ⟨rfl, hval, ?_, string_split⟩
  rw [hval]
  have hnil : pre = [] → decimalValue pre = 0 := fun h => by rw [h, decimalValue_nil]
  by_cases hp : pre = []
  · rw [if_pos hp, hnil hp]
    constructor
    · intro h; omega
    · rintro ⟨_, h | h⟩ <;> omega
  · rw [if_neg hp]
    by_cases hv : 2 ^ 64 ≤ decimalValue pre
    · rw [if_pos hv]
      by_cases hm : sign = ['-']
      · rw [if_pos hm]
        constructor
        · intro h; omega
        · intro h; exact absurd hm h.1
      · rw [if_neg hm]
        constructor
        · intro _; exact ⟨hm, Or.inl hv⟩
        · intro _; omega
    · rw [if_neg hv]
      by_cases hr : rest = []
      · rw [if_neg (by simpa using hr)]
        by_cases hm : sign = ['-']
        · rw [if_pos hm]
          constructor
          · intro h; split at h <;> omega
          · intro h; exact absurd hm h.1
        · rw [if_neg hm]
          constructor
          · intro h
            refine ⟨hm, Or.inr ⟨hr, ?_⟩⟩
            split at h <;> omega
          · rintro ⟨_, h | h⟩
            · exact absurd h hv
            · split <;> omega
      · rw [if_pos hr]
        constructor
        · intro h; omega
        · rintro ⟨_, h | h⟩
          · exact absurd h hv
          · exact absurd h.1 hr

theorem sampling_interval_from_environment_witness :
    SAMPLE_EVERY_N_FRAMES (some ⟨['-'] ++ ([0, 4, 2].map digitChar ++ [])⟩) = -42 ∧
      ¬ (1 ≤ SAMPLE_EVERY_N_FRAMES (some ⟨['-'] ++ ([0, 4, 2].map digitChar ++ [])⟩)) ∧
      SAMPLE_EVERY_N_FRAMES (some ⟨[] ++ ([1, 2].map digitChar ++ ['x', 'y'])⟩) = 0 :=
  ⟨(sampling_interval_from_environment ['-'] [0, 4, 2] [] (by decide) (by decide)
      (by decide) (by decide)).2.1.trans (by decide),
    fun h => absurd ((sampling_interval_from_environment ['-'] [0, 4, 2] [] (by decide)
      (by decide) (by decide) (by decide)).2.2.1.mp h).1 (by decide),
    (sampling_interval_from_environment [] [1, 2] ['x', 'y'] (by decide) (by decide)
      (by decide) (by decide)).2.1.trans (by decide)⟩

/-- C14: eviction is terminal. One broadcast never adds a member to the
subscriber set; over any sequence of broadcasts with no registration in between
every live set is a subset of every earlier one, and a subscriber whose write
failed in one broadcast is written to by no later broadcast. -/
theorem eviction_is_terminal (h : Hub) (bs : List Broadcast)
    (hord : h.ordersEnumerate bs = true) :
    (∀ (ok : Conn → Bool) (d : CarTelemetryData) (order : List Conn),
        (h.runCycle ok d order).clients ⊆ h.clients) ∧
      (∀ r ∈ h.runCycles bs, r.clients ⊆ h.clients) ∧
      List.Pairwise (fun r1 r2 => r2.clients ⊆ r1.clients) (h.runCycles bs) ∧
      List.Pairwise (fun r1 r2 => ∀ c ∈ r1.closed, c ∉ r2.writes.map Prod.fst)
        (h.runCycles bs) := by
  refine ⟨fun ok d order => rangeClients_clients_subset _ _ _ _,
    fun r hr => (runCycles_mem h bs hord r hr).1, ?_, ?_⟩
  · induction bs generalizing h with
    | nil => exact List.Pairwise.nil
    | cons b rest ih =>
      simp only [Hub.ordersEnumerate, Bool.and_eq_true, decide_eq_true_eq] at hord
      simp only [Hub.runCycles]
      refine List.Pairwise.cons ?_ (ih _ hord.2)
      intro r hr
      exact (runCycles_mem _ rest hord.2 r hr).1
  · induction bs generalizing h with
    | nil => exact List.Pairwise.nil
    | cons b rest ih =>
      simp only [Hub.ordersEnumerate, Bool.and_eq_true, decide_eq_true_eq] at hord
      simp only [Hub.runCycles]
      refine List.Pairwise.cons ?_ (ih _ hord.2)
      intro r hr c hc hw
      have hin := (runCycles_mem _ rest hord.2 r hr).2 hw
      exact rangeClients_closed_not_mem _ _ _ _ c hc hin

theorem eviction_is_terminal_witness :
    Hub.ordersEnumerate ⟨[1, 2, 3]⟩
        [⟨fun x => x != 2, sampleRecord, [3, 1, 2]⟩,
          ⟨fun _ => true, CarTelemetryData.zero, [3, 1]⟩] = true ∧
      List.Pairwise (fun r1 r2 => ∀ c ∈ r1.closed, c ∉ r2.writes.map Prod.fst)
        (Hub.runCycles ⟨[1, 2, 3]⟩
          [⟨fun x => x != 2, sampleRecord, [3, 1, 2]⟩,
            ⟨fun _ => true, CarTelemetryData.zero, [3, 1]⟩]) ∧
      (Hub.runCycles ⟨[1, 2, 3]⟩
          [⟨fun x => x != 2, sampleRecord, [3, 1, 2]⟩,
            ⟨fun _ => true, CarTelemetryData.zero, [3, 1]⟩]).map (fun r => r.closed) =
        [[2], []] :=
  ⟨by decide,
    (eviction_is_terminal ⟨[1, 2, 3]⟩
      [⟨fun x => x != 2, sampleRecord, [3, 1, 2]⟩,
        ⟨fun _ => true, CarTelemetryData.zero, [3, 1]⟩] (by decide)).2.2.2,
    by decide⟩

/-- C15: register adds exactly one member. Registering `c` in the set `S`
gives the set with members `c` and those of `S`, without duplicate; every
earlier member is kept; registering a member again changes nothing; a new
member makes the set one larger; and the next broadcast writes to `c`, exactly
once. -/
theorem register_adds_one_member (S : List Conn) (c : Conn) (ok : Conn → Bool)
    (r : CarTelemetryData) (order : List Conn) (hS : S.Nodup)
    (hperm : order.Perm (Hub.register ⟨S⟩ c).clients) :
    (∀ x, x ∈ (Hub.register ⟨S⟩ c).clients ↔ x = c ∨ x ∈ S) ∧
      (Hub.register ⟨S⟩ c).clients.Nodup ∧
      (∀ x ∈ S, x ∈ (Hub.register ⟨S⟩ c).clients) ∧
      (c ∈ S → Hub.register ⟨S⟩ c = ⟨S⟩) ∧
      (c ∉ S → (Hub.register ⟨S⟩ c).clients.length = S.length + 1) ∧
      (c, r) ∈ ((Hub.register ⟨S⟩ c).runCycle ok r order).writes ∧
      (((Hub.register ⟨S⟩ c).runCycle ok r order).writes.map Prod.fst).count c = 1 := by
  have hnd := nodup_mapInsert S c hS
  have hmem : c ∈ order := hperm.mem_iff.mpr ((mem_mapInsert S c c).mpr (Or.inl rfl))
  refine ⟨mem_mapInsert S c, hnd, fun x hx => (mem_mapInsert S c x).mpr (Or.inr hx), ?_, ?_,
    ?_, ?_⟩
  · intro hc
    simp [Hub.register, mapInsert, hc]
  · intro hc
    simp [Hub.register, mapInsert, hc]
  · unfold Hub.runCycle
    rw [rangeClients_writes]
    exact List.mem_map.mpr ⟨c, hmem, rfl⟩
  · unfold Hub.runCycle
    rw [rangeClients_writes, map_fst_map_pair]
    exact List.count_eq_one_of_mem (hperm.nodup_iff.mpr hnd) hmem

theorem register_adds_one_member_witness :
    [1, 2].Nodup ∧ [2, 3, 1].Perm (Hub.register ⟨[1, 2]⟩ 3).clients ∧
      (Hub.register ⟨[1, 2]⟩ 3).clients.length = 3 ∧
      (((Hub.register ⟨[1, 2]⟩ 3).runCycle (fun _ => true) sampleRecord
        [2, 3, 1]).writes.map Prod.fst).count 3 = 1 :=
  ⟨by decide, by decide,
    (register_adds_one_member [1, 2] 3 (fun _ => true) sampleRecord [2, 3, 1] (by decide)
      (by decide)).2.2.2.2.1 (by decide),
    (register_adds_one_member [1, 2] 3 (fun _ => true) sampleRecord [2, 3, 1] (by decide)
      (by decide)).2.2.2.2.2.2⟩

/-- C16, where it fails: with subscribers 1 and 2 iterated in that order and
the write to 1 never returning, the only write started is the one to 1,
subscriber 2 receives nothing, the cycle does not complete, and of two records
sent by the ingestion loop only the first is ever received. -/
theorem blocked_write_stalls_fanout :
    (rangeClientsBlocking (fun c => if c = 1 then WriteOutcome.blocked else WriteOutcome.ok)
        sampleRecord [1, 2] [1, 2]).writes = [(1, sampleRecord)] ∧
      (rangeClientsBlocking (fun c => if c = 1 then WriteOutcome.blocked else WriteOutcome.ok)
        sampleRecord [1, 2] [1, 2]).completed = false ∧
      (Hub.runBlocking ⟨[1, 2]⟩
        [⟨fun c => if c = 1 then WriteOutcome.blocked else WriteOutcome.ok, sampleRecord,
            [1, 2]⟩,
          ⟨fun _ => WriteOutcome.ok, CarTelemetryData.zero, [1, 2]⟩]).length = 1 := by
  decide

/-- C16, amended: a subscriber whose write returns, with or without an
error, does not stall the fan-out: when every write of a cycle returns, the
cycle completes, every member is written the record once, exactly the members
whose write failed are closed, they are evicted and the others stay, and the
next record is received. The write is a blocking one without deadline: a write
that never returns ends the cycle there; the record has been written to the
subscribers before it in iteration order and to it, those before it whose write
failed have been closed and evicted, the subscribers after it are not written
to, and no further record is received from the ingestion loop. -/
theorem fanout_stalls_only_on_blocked_write (S order : List Conn)
    (outcome : Conn → WriteOutcome) (data : CarTelemetryData) (rest : List BlockingBroadcast)
    (pre post : List Conn) (c : Conn) (hS : S.Nodup) (hperm : order.Perm S) :
    ((∀ x ∈ order, outcome x ≠ WriteOutcome.blocked) →
        (rangeClientsBlocking outcome data order S).completed = true ∧
        ((rangeClientsBlocking outcome data order S).writes.map Prod.fst).Perm S ∧
        (∀ w ∈ (rangeClientsBlocking outcome data order S).writes, w.2 = data) ∧
        (rangeClientsBlocking outcome data order S).closed =
          order.filter (fun x => decide (outcome x = WriteOutcome.failed)) ∧
        (∀ x ∈ S, outcome x = WriteOutcome.failed →
          x ∈ (rangeClientsBlocking outcome data order S).closed ∧
          x ∉ (rangeClientsBlocking outcome data order S).clients) ∧
        (rangeClientsBlocking outcome data order S).clients =
          S.filter (fun x => decide (outcome x = WriteOutcome.ok)) ∧
        Hub.runBlocking ⟨S⟩ (⟨outcome, data, order⟩ :: rest) =
          rangeClientsBlocking outcome data order S ::
            Hub.runBlocking ⟨(rangeClientsBlocking outcome data order S).clients⟩ rest) ∧
      (order = pre ++ c :: post → (∀ x ∈ pre, outcome x ≠ WriteOutcome.blocked) →
        outcome c = WriteOutcome.blocked →
        (rangeClientsBlocking outcome data order S).completed = false ∧
        (rangeClientsBlocking outcome data order S).writes =
          (pre ++ [c]).map (fun x => (x, data)) ∧
        (∀ x ∈ post, x ∉ (rangeClientsBlocking outcome data order S).writes.map Prod.fst) ∧
        (rangeClientsBlocking outcome data order S).closed =
          pre.filter (fun x => decide (outcome x = WriteOutcome.failed)) ∧
        (rangeClientsBlocking outcome data order S).clients =
          S.filter (fun x =>
            !(decide (x ∈ pre) && decide (outcome x = WriteOutcome.failed))) ∧
        Hub.runBlocking ⟨S⟩ (⟨outcome, data, order⟩ :: rest) =
          [rangeClientsBlocking outcome data order S]) := by
  constructor
  · intro hno
    have e := rangeClientsBlocking_of_no_block outcome data order S hno
    have hrun : Hub.runBlocking ⟨S⟩ (⟨outcome, data, order⟩ :: rest) =
        rangeClientsBlocking outcome data order S ::
          Hub.runBlocking ⟨(rangeClientsBlocking outcome data order S).clients⟩ rest := by
      simp [Hub.runBlocking, e]
    have hclosed : (rangeClientsBlocking outcome data order S).closed =
        order.filter (fun x => decide (outcome x = WriteOutcome.failed)) := by
      rw [e]
      exact rangeClients_closed_decide outcome data order S hno
    have hclients : (rangeClientsBlocking outcome data order S).clients =
        S.filter (fun x => decide (outcome x = WriteOutcome.ok)) := by
      rw [e]
      exact rangeClients_clients_of_perm _ _ _ _ hperm
    refine ⟨by rw [e], ?_, ?_, hclosed, ?_, hclients, hrun⟩
    · rw [e]
      simp only [rangeClients_writes, map_fst_map_pair]
      exact hperm
    · intro w hw
      rw [e] at hw
      simp only [rangeClients_writes] at hw
      obtain ⟨y, _, rfl⟩ := List.mem_map.mp hw
      rfl
    · intro x hx hf
      rw [hclosed, hclients]
      constructor
      · exact List.mem_filter.mpr ⟨hperm.mem_iff.mpr hx, by simp [hf]⟩
      · intro hmem
        have := (List.mem_filter.mp hmem).2
        simp [hf] at this
  · intro ho hpre hc
    subst ho
    have e := rangeClientsBlocking_of_block outcome data pre post S c hpre hc
    have e2 := rangeClientsBlocking_prefix outcome data pre post S c hpre hc
    have hnd : (pre ++ c :: post).Nodup := hperm.nodup_iff.mpr hS
    refine ⟨e.1, e.2, ?_, e2.1, e2.2, ?_⟩
    · intro x hx hmem
      rw [e.2, map_fst_map_pair] at hmem
      rw [List.nodup_append] at hnd
      rcases List.mem_append.mp hmem with h1 | h1
      · exact hnd.2.2 h1 (List.mem_cons_of_mem _ hx)
      · have hxc : x = c := by simpa using h1
        subst hxc
        exact (List.nodup_cons.mp hnd.2.1).1 hx
    · simp [Hub.runBlocking, e.1]

theorem fanout_stalls_only_on_blocked_write_witness :
    [1, 2, 3].Nodup ∧ [2, 1, 3].Perm [1, 2, 3] ∧
      (rangeClientsBlocking (fun x => if x = 1 then WriteOutcome.blocked else WriteOutcome.failed)
        sampleRecord [2, 1, 3] [1, 2, 3]).completed = false ∧
      (rangeClientsBlocking (fun x => if x = 1 then WriteOutcome.blocked else WriteOutcome.failed)
        sampleRecord [2, 1, 3] [1, 2, 3]).writes = [(2, sampleRecord), (1, sampleRecord)] ∧
      (rangeClientsBlocking (fun x => if x = 2 then WriteOutcome.failed else WriteOutcome.ok)
        sampleRecord [2, 1, 3] [1, 2, 3]).completed = true ∧
      (rangeClientsBlocking (fun x => if x = 2 then WriteOutcome.failed else WriteOutcome.ok)
        sampleRecord [2, 1, 3] [1, 2, 3]).closed = [2] ∧
      (rangeClientsBlocking (fun x => if x = 2 then WriteOutcome.failed else WriteOutcome.ok)
        sampleRecord [2, 1, 3] [1, 2, 3]).clients = [1, 3] :=
  ⟨by decide, by decide,
    ((fanout_stalls_only_on_blocked_write [1, 2, 3] [2, 1, 3]
      (fun x => if x = 1 then WriteOutcome.blocked else WriteOutcome.failed) sampleRecord []
      [2] [3] 1 (by decide) (by decide)).2 rfl (by decide) (by decide)).1,
    ((fanout_stalls_only_on_blocked_write [1, 2, 3] [2, 1, 3]
      (fun x => if x = 1 then WriteOutcome.blocked else WriteOutcome.failed) sampleRecord []
      [2] [3] 1 (by decide) (by decide)).2 rfl (by decide) (by decide)).2.1,
    ((fanout_stalls_only_on_blocked_write [1, 2, 3] [2, 1, 3]
      (fun x => if x = 2 then WriteOutcome.failed else WriteOutcome.ok) sampleRecord []
      [2] [3] 1 (by decide) (by decide)).1 (by decide)).1,
    ((fanout_stalls_only_on_blocked_write [1, 2, 3] [2, 1, 3]
      (fun x => if x = 2 then WriteOutcome.failed else WriteOutcome.ok) sampleRecord []
      [2] [3] 1 (by decide) (by decide)).1 (by decide)).2.2.2.1.trans (by decide),
    ((fanout_stalls_only_on_blocked_write [1, 2, 3] [2, 1, 3]
      (fun x => if x = 2 then WriteOutcome.failed else WriteOutcome.ok) sampleRecord []
      [2] [3] 1 (by decide) (by decide)).1 (by decide)).2.2.2.2.2.1.trans (by decide)⟩

/-- C17: a truncated datagram still consumes the dedup slot. A telemetry
datagram that the sampling code accepts but whose length is below
`29 + (playerCarIndex + 1) * 60` hands nothing to the Hub, yet the sampling
state becomes `(its overall frame id, false)`; a complete datagram with the same
overall frame id that follows immediately is rejected as a duplicate, hands
nothing to the Hub and leaves the state as it is. -/
theorem truncated_datagram_consumes_dedup_slot (N : Int) (st : SamplingState)
    (buf : List Byte) (n : Nat) (buf2 : List Byte) (n2 : Nat)
    (hbuf : buf.length = BUF_SIZE) (hn : HDR_SIZE ≤ n)
    (hpid : (headerOf buf).PacketId = PID_CAR_TELEMETRY)
    (hacc : (samplingFilter N st (headerOf buf).OverallFrameId).1 = Verdict.accept)
    (htrunc : n < HDR_SIZE + ((headerOf buf).PlayerCarIndex + 1) * TEL_SIZE)
    (hbuf2 : buf2.length = BUF_SIZE) (hn2 : n2 ≤ BUF_SIZE)
    (hpid2 : (headerOf buf2).PacketId = PID_CAR_TELEMETRY)
    (hsame : (headerOf buf2).OverallFrameId = (headerOf buf).OverallFrameId)
    (hfull : HDR_SIZE + ((headerOf buf2).PlayerCarIndex + 1) * TEL_SIZE ≤ n2) :
    sentRecords (processDatagram N st buf n).trace = [] ∧
      (processDatagram N st buf n).state = ⟨(headerOf buf).OverallFrameId, false⟩ ∧
      (processDatagram N st buf n).panic = none ∧
      (samplingFilter N (processDatagram N st buf n).state (headerOf buf2).OverallFrameId).1 =
        Verdict.rejectDuplicate ∧
      sentRecords (processDatagram N (processDatagram N st buf n).state buf2 n2).trace = [] ∧
      (processDatagram N (processDatagram N st buf n).state buf2 n2).state =
        (processDatagram N st buf n).state := by
  have hB : BUF_SIZE = 4096 := rfl
  have hH : HDR_SIZE = 29 := rfl
  have hT : TEL_SIZE = 60 := rfl
  have hoff : n < payloadOffset (headerOf buf) + TEL_SIZE := by
    unfold payloadOffset
    rw [Nat.add_mul, Nat.one_mul, ← Nat.add_assoc] at htrunc
    exact htrunc
  have hn2h : HDR_SIZE ≤ n2 := by omega
  have hfirst : processDatagram N st buf n =
      ⟨⟨(headerOf buf).OverallFrameId, false⟩, [Event.headerDecoded (headerOf buf)], none⟩ := by
    rw [processDatagram_telemetry N st buf n hn (by omega) hpid,
      samplingFilter_accept_state N st _ hacc]
    simp only [if_pos hoff]
  have hsecond : processDatagram N ⟨(headerOf buf).OverallFrameId, false⟩ buf2 n2 =
      ⟨⟨(headerOf buf).OverallFrameId, false⟩, [Event.headerDecoded (headerOf buf2)], none⟩ := by
    rw [processDatagram_telemetry N _ buf2 n2 hn2h (by omega) hpid2, hsame,
      samplingFilter_duplicate]
  rw [hfirst]
  simp only []
  rw [hsecond, hsame, samplingFilter_duplicate]
  refine ⟨?_, ?_, ?_, ?_, ?_, ?_⟩ <;> first | rfl | trivial

theorem truncated_datagram_consumes_dedup_slot_witness :
    sampleBuffer.length = BUF_SIZE ∧ HDR_SIZE ≤ 148 ∧
      148 < HDR_SIZE + ((headerOf sampleBuffer).PlayerCarIndex + 1) * TEL_SIZE ∧
      HDR_SIZE + ((headerOf sampleBuffer).PlayerCarIndex + 1) * TEL_SIZE ≤ 149 ∧
      (processDatagram 2 SamplingState.init sampleBuffer 148).state = ⟨4, false⟩ ∧
      sentRecords (processDatagram 2 (processDatagram 2 SamplingState.init sampleBuffer
        148).state sampleBuffer 149).trace = [] :=
  ⟨by decide!, by decide, by decide!, by decide!,
    (truncated_datagram_consumes_dedup_slot 2 SamplingState.init sampleBuffer 148 sampleBuffer
      149 (by decide!) (by decide) (by decide!) (by decide!) (by decide!) (by decide!)
      (by decide) (by decide!) rfl (by decide!)).2.1.trans (by decide!),
    (truncated_datagram_consumes_dedup_slot 2 SamplingState.init sampleBuffer 148 sampleBuffer
      149 (by decide!) (by decide) (by decide!) (by decide!) (by decide!) (by decide!)
      (by decide) (by decide!) rfl (by decide!)).2.2.2.2.1⟩

/-- C18: stale buffer bytes never influence the result. Two 4096-byte buffers
that agree on their first `n` bytes give, for a datagram of received length
`n`, the same sampling state and interval, the same loop-body result: the same
new state, the same decode and send events with the same record, and the same
panic status; the result is that of the first `n` bytes alone. -/
theorem stale_bytes_ignored (N : Int) (st : SamplingState) (buf1 buf2 : List Byte) (n : Nat)
    (h1 : buf1.length = BUF_SIZE) (h2 : buf2.length = BUF_SIZE) (hn : n ≤ BUF_SIZE)
    (hagree : buf1.take n = buf2.take n) :
    processDatagram N st buf1 n = processDatagram N st buf2 n ∧
      processDatagram N st buf1 n = processDatagram N st (buf1.take n) n := by
  have e1 := processDatagram_take N st buf1 n (by omega)
  have e2 := processDatagram_take N st buf2 n (by omega)
  exact ⟨by rw [e1, e2, hagree], e1⟩

theorem stale_bytes_ignored_witness :
    sampleBuffer.length = BUF_SIZE ∧ staleTailBuffer.length = BUF_SIZE ∧ 149 ≤ BUF_SIZE ∧
      sampleBuffer.take 149 = staleTailBuffer.take 149 ∧ sampleBuffer ≠ staleTailBuffer ∧
      processDatagram 2 SamplingState.init sampleBuffer 149 =
        processDatagram 2 SamplingState.init staleTailBuffer 149 :=
  ⟨by decide!, by decide!, by decide, by decide!, by decide!,
    (stale_bytes_ignored 2 SamplingState.init sampleBuffer staleTailBuffer 149 (by decide!)
      (by decide!) (by decide) (by decide!)).1⟩

/-- C19: the decision depends on four header-derived inputs only. Two
datagrams of the same length whose buffers agree on the packet-id byte (offset
6), the overall-frame-id bytes (offsets 23 to 26) and the player-car-index byte
(offset 27), processed from the same state with the same interval, broadcast a
record or not alike and end in the same sampling state (and panic alike). -/
theorem decision_depends_on_four_inputs (N : Int) (st : SamplingState)
    (buf1 buf2 : List Byte) (n : Nat)
    (h1 : buf1.length = BUF_SIZE) (h2 : buf2.length = BUF_SIZE) (hn : n ≤ BUF_SIZE)
    (h6 : byteAt buf1 6 = byteAt buf2 6)
    (h23 : byteAt buf1 23 = byteAt buf2 23) (h24 : byteAt buf1 24 = byteAt buf2 24)
    (h25 : byteAt buf1 25 = byteAt buf2 25) (h26 : byteAt buf1 26 = byteAt buf2 26)
    (h27 : byteAt buf1 27 = byteAt buf2 27) :
    (sentRecords (processDatagram N st buf1 n).trace).length =
        (sentRecords (processDatagram N st buf2 n).trace).length ∧
      (sentRecords (processDatagram N st buf1 n).trace = [] ↔
        sentRecords (processDatagram N st buf2 n).trace = []) ∧
      (processDatagram N st buf1 n).state = (processDatagram N st buf2 n).state ∧
      (processDatagram N st buf1 n).panic = (processDatagram N st buf2 n).panic := by
  have hB : BUF_SIZE = 4096 := rfl
  have hH : HDR_SIZE = 29 := rfl
  have hT : TEL_SIZE = 60 := rfl
  have key : (sentRecords (processDatagram N st buf1 n).trace).length =
        (sentRecords (processDatagram N st buf2 n).trace).length ∧
      (processDatagram N st buf1 n).state = (processDatagram N st buf2 n).state ∧
      (processDatagram N st buf1 n).panic = (processDatagram N st buf2 n).panic := by
    by_cases hs : n < HDR_SIZE
    · rw [processDatagram_short N st buf1 n hs, processDatagram_short N st buf2 n hs]
      exact ⟨rfl, rfl, rfl⟩
    · have epid : (headerOf buf1).PacketId = (headerOf buf2).PacketId := by
        rw [headerOf_eq buf1 (by omega), headerOf_eq buf2 (by omega)]
        exact h6
      have efid : (headerOf buf1).OverallFrameId = (headerOf buf2).OverallFrameId := by
        rw [headerOf_eq buf1 (by omega), headerOf_eq buf2 (by omega)]
        simp only [h23, h24, h25, h26]
      have epci : payloadOffset (headerOf buf1) = payloadOffset (headerOf buf2) := by
        unfold payloadOffset
        rw [headerOf_eq buf1 (by omega), headerOf_eq buf2 (by omega)]
        simp only [h27]
      by_cases hpid : (headerOf buf1).PacketId = PID_CAR_TELEMETRY
      · rw [processDatagram_telemetry N st buf1 n (by omega) (by omega) hpid,
          processDatagram_telemetry N st buf2 n (by omega) (by omega) (by rw [← epid]; exact hpid),
          efid, epci]
        rcases samplingFilter N st (headerOf buf2).OverallFrameId with ⟨v, st1⟩
        cases v
        · by_cases hoff : n < payloadOffset (headerOf buf2) + TEL_SIZE
          · simp only [if_pos hoff]
            refine ⟨?_, ?_, ?_⟩ <;> first | rfl | trivial
          · simp only [if_neg hoff]
            rw [slice_eq_some buf1 _ _ (Nat.le_add_right _ _) (by omega),
              slice_eq_some buf2 _ _ (Nat.le_add_right _ _) (by omega)]
            exact ⟨rfl, rfl, rfl⟩
        · exact ⟨rfl, rfl, rfl⟩
        · exact ⟨rfl, rfl, rfl⟩
        · exact ⟨rfl, rfl, rfl⟩
      · rw [processDatagram_other_kind N st buf1 n (by omega) (by omega) hpid,
          processDatagram_other_kind N st buf2 n (by omega) (by omega)
            (by rw [← epid]; exact hpid)]
        exact ⟨rfl, rfl, rfl⟩
  refine ⟨key.1, ?_, key.2.1, key.2.2⟩
  rw [← List.length_eq_zero, ← List.length_eq_zero, key.1]

theorem decision_depends_on_four_inputs_witness :
    sampleBuffer.length = BUF_SIZE ∧ otherSessionBuffer.length = BUF_SIZE ∧
      (headerOf sampleBuffer).SessionUID ≠ (headerOf otherSessionBuffer).SessionUID ∧
      (processDatagram 2 ⟨4, false⟩ sampleBuffer 149).state =
        (processDatagram 2 ⟨4, false⟩ otherSessionBuffer 149).state ∧
      sentRecords (processDatagram 2 ⟨4, false⟩ otherSessionBuffer 149).trace = [] :=
  ⟨by decide!, by decide!, by decide!,
    (decision_depends_on_four_inputs 2 ⟨4, false⟩ sampleBuffer otherSessionBuffer 149
      (by decide!) (by decide!) (by decide) (by decide!) (by decide!) (by decide!) (by decide!)
      (by decide!) (by decide!)).2.2.1,
    by decide!⟩

end F1Telemetry
